import Mathlib

set_option maxHeartbeats 1000000

/- Verification of the markdown-kanban core: the new-dialect parser
   MarkdownKanbanParser.parseMarkdown, the serializer generateMarkdown and
   the board mutations of KanbanWebviewPanel, all from
   src/kanbanWebviewPanel.ts.  JS strings are modeled as List Char and each
   regular expression of the source is embedded as an equivalent
   deterministic matcher, noted at its definition. -/

/-- Whitespace characters recognised by the JS \s class and by
String.prototype.trim on the ASCII documents this development considers. -/
def wsChar (c : Char) : Bool :=
  c = ' ' || c = '\t' || c = '\n' || c = '\r' || c = Char.ofNat 11 || c = Char.ofNat 12

/-- Drop trailing characters satisfying p (helper for trim). -/
def rdropWhileP (p : Char → Bool) (l : List Char) : List Char :=
  (l.reverse.dropWhile p).reverse

/-- JS String.prototype.trim. -/
def jsTrim (l : List Char) : List Char :=
  rdropWhileP wsChar (l.dropWhile wsChar)

/-- JS String.prototype.split with a one-character separator. -/
def splitOnChar (sep : Char) : List Char → List (List Char)
  | [] => [[]]
  | c :: rest =>
    let r := splitOnChar sep rest
    if c = sep then [] :: r
    else match r with
      | [] => [[c]]
      | g :: gs => (c :: g) :: gs

/-- Normalisation of line endings: content.replace with \r\n to \n globally,
then \r to \n globally, fused into one equivalent left-to-right pass. -/
def normalizeNewlines : List Char → List Char
  | [] => []
  | [c] => if c = '\r' then ['\n'] else [c]
  | c :: d :: rest =>
    if c = '\r' then
      if d = '\n' then '\n' :: normalizeNewlines rest
      else '\n' :: normalizeNewlines (d :: rest)
    else c :: normalizeNewlines (d :: rest)

/-- Decimal digits of n, least significant first; fuel-driven so that the
kernel can evaluate it. -/
def decDigitsAux : Nat → Nat → List Nat
  | 0, _ => []
  | _ + 1, 0 => []
  | fuel + 1, n => n % 10 :: decDigitsAux fuel (n / 10)

/-- Decimal digits of n, least significant first. -/
def decDigits (n : Nat) : List Nat := decDigitsAux n n

/-- The characters of the JS decimal rendering of a natural number, as in a
template literal interpolation of board.nextId. -/
def natChars (n : Nat) : List Char :=
  if n = 0 then ['0']
  else ((decDigits n).map (fun d => Char.ofNat (48 + d))).reverse

/-- JS decimal rendering of a natural number as a String. -/
def jsNatToString (n : Nat) : String := String.mk (natChars n)

/-- Value of a little-endian digit list (left inverse of decDigits). -/
def ofDecDigits : List Nat → Nat
  | [] => 0
  | d :: ds => d + 10 * ofDecDigits ds

/-- Value of a list of decimal digit characters, most significant first, as
JS parseInt computes it on an all-digit string. -/
def digitsToNat (l : List Char) : Nat :=
  l.foldl (fun acc c => acc * 10 + (c.toNat - 48)) 0

/- ===== The board model (interfaces of kanbanWebviewPanel.ts) ===== -/

/-- A checklist entry: text with a completion flag. -/
structure ChecklistItem where
  text : String
  completed : Bool
deriving DecidableEq, Repr, Inhabited

/-- The priority enumeration low, medium, high. -/
inductive Priority
  | low
  | medium
  | high
deriving DecidableEq, Repr

/-- The workload enumeration Easy, Normal, Hard, Extreme. -/
inductive Workload
  | easy
  | normal
  | hard
  | extreme
deriving DecidableEq, Repr

/-- Which checklist of a task is concerned: steps, ac or verify. -/
inductive ChecklistKey
  | steps
  | ac
  | verify
deriving DecidableEq, Repr

/-- KanbanTask of the source.  Optional JS fields are Options; a JS empty
string stored in an optional string field is `some ""`, which is falsy in
JS, while `none` is undefined. -/
structure KanbanTask where
  id : String
  title : String
  description : Option String := none
  tags : Option (List String) := none
  priority : Option Priority := none
  workload : Option Workload := none
  dueDate : Option String := none
  startDate : Option String := none
  defaultExpanded : Option Bool := none
  steps : Option (List ChecklistItem) := none
  ac : Option (List ChecklistItem) := none
  verify : Option (List ChecklistItem) := none
  files : Option String := none
deriving DecidableEq, Repr, Inhabited

/-- KanbanColumn of the source. -/
structure KanbanColumn where
  id : String
  title : String
  tasks : List KanbanTask
  archived : Option Bool := none
deriving DecidableEq, Repr, Inhabited

/-- KanbanBoard of the source. -/
structure KanbanBoard where
  title : String
  columns : List KanbanColumn
  nextId : Nat
deriving DecidableEq, Repr, Inhabited

/-- Truthiness of a JS optional string: undefined and the empty string are
falsy. -/
def strTruthy : Option String → Bool
  | none => false
  | some s => s ≠ ""

/-- Read a checklist field of a task. -/
def getList (t : KanbanTask) : ChecklistKey → Option (List ChecklistItem)
  | .steps => t.steps
  | .ac => t.ac
  | .verify => t.verify

/-- Write a checklist field of a task. -/
def setList (t : KanbanTask) : ChecklistKey → Option (List ChecklistItem) → KanbanTask
  | .steps, v => { t with steps := v }
  | .ac, v => { t with ac := v }
  | .verify, v => { t with verify := v }

/- ===== Embedded regular expressions of the source ===== -/

/-- List of chars for a string literal. -/
def chars (s : String) : List Char := s.data

/-- Try the pattern of the counter regex at the current position: the
characters <!-- then ws, next-id:, ws, one or more digits, ws, -->.
Returns the digit value on a match. -/
def matchNextIdAt (l : List Char) : Option Nat :=
  if (chars "<!--").isPrefixOf l then
    let r1 := (l.drop 4).dropWhile wsChar
    if (chars "next-id:").isPrefixOf r1 then
      let r2 := (r1.drop 8).dropWhile wsChar
      let ds := r2.takeWhile Char.isDigit
      if ds = [] then none
      else
        let r3 := (r2.dropWhile Char.isDigit).dropWhile wsChar
        if (chars "-->").isPrefixOf r3 then some (digitsToNat ds) else none
    else none
  else none

/-- First match of the counter regex anywhere in the text (content.match of
the pattern <!-- ws next-id: ws digits ws --> without the g flag). -/
def scanNextId : List Char → Option Nat
  | [] => none
  | c :: rest =>
    match matchNextIdAt (c :: rest) with
    | some n => some n
    | none => scanNextId rest

/-- Match of the header id pattern: TSK then an underscore or dash, one or
more digits, one or more whitespace, then the rest; returns the id part and
the rest (the two capture groups). -/
def tskHeaderMatch (l : List Char) : Option (List Char × List Char) :=
  if (chars "TSK").isPrefixOf l then
    match l.drop 3 with
    | sep :: r1 =>
      if sep = '_' || sep = '-' then
        let ds := r1.takeWhile Char.isDigit
        if ds = [] then none
        else
          let r2 := r1.dropWhile Char.isDigit
          let ws := r2.takeWhile wsChar
          if ws = [] then none
          else some ('T' :: 'S' :: 'K' :: sep :: ds, r2.dropWhile wsChar)
      else none
    | [] => none
  else none

/-- Full-string match of the canonical id pattern: TSK, underscore or dash,
one or more digits, end of string. -/
def isCanonicalId (l : List Char) : Bool :=
  if (chars "TSK").isPrefixOf l then
    match l.drop 3 with
    | sep :: r1 =>
      (sep = '_' || sep = '-') && r1 ≠ [] && r1.all Char.isDigit
    | [] => false
  else false

/-- Canonical id check on a String field. -/
def isCanonicalIdStr (s : String) : Bool := isCanonicalId s.data

/-- Case-insensitive match of the bold section header pattern: two stars,
one of AC, Verify, Steps, Files, a colon, two stars, then optional
whitespace and the inline rest.  Returns the section key (here Files is
mapped separately) and the rest after the whitespace. -/
inductive BoldSection
  | ac
  | verifySection
  | steps
  | files
deriving DecidableEq, Repr

/-- Prefix part of the bold section header match (used both by the parser
and by the task-title exclusion, which tests the same pattern without
anchoring the end). -/
def boldSectionPrefixMatch (l : List Char) : Option (BoldSection × List Char) :=
  let low := l.map Char.toLower
  if (chars "**ac:**").isPrefixOf low then some (.ac, l.drop 7)
  else if (chars "**verify:**").isPrefixOf low then some (.verifySection, l.drop 11)
  else if (chars "**steps:**").isPrefixOf low then some (.steps, l.drop 10)
  else if (chars "**files:**").isPrefixOf low then some (.files, l.drop 10)
  else none

/-- Match of the new-format checklist item pattern on a trimmed line: dash,
one or more whitespace, a bracketed space or x, one or more whitespace,
then the rest.  Returns the completion flag and the rest. -/
def checklistMatch (l : List Char) : Option (Bool × List Char) :=
  match l with
  | '-' :: r1 =>
    let ws1 := r1.takeWhile wsChar
    if ws1 = [] then none
    else
      match r1.dropWhile wsChar with
      | '[' :: m :: ']' :: r2 =>
        if m = ' ' || m = 'x' then
          let ws2 := r2.takeWhile wsChar
          if ws2 = [] then none
          else some (m = 'x', r2.dropWhile wsChar)
        else none
      | _ => none
  | _ => none

/-- The property keys of a legacy property line, in the alternation order of
the source regex. -/
def propertyKeys : List (List Char) :=
  [chars "id", chars "due", chars "tags", chars "priority", chars "workload",
   chars "steps", chars "defaultExpanded", chars "desc", chars "ac",
   chars "verify", chars "files"]

/-- Try the keys of the legacy property alternation, each followed by a
colon, against l; returns the matched key and the rest after the colon. -/
def matchPropertyKey : List (List Char) → List Char → Option (List Char × List Char)
  | [], _ => none
  | k :: ks, l =>
    if (k ++ [':']).isPrefixOf l then some (k, l.drop (k.length + 1))
    else matchPropertyKey ks l

/-- Match of the legacy property pattern on a raw line: one or more leading
whitespace, a dash and a space, a key of the alternation, a colon, optional
whitespace, then the value rest.  Returns the key and the value rest. -/
def propertyLineMatch (l : List Char) : Option (List Char × List Char) :=
  let ws := l.takeWhile wsChar
  if ws = [] then none
  else
    match l.dropWhile wsChar with
    | '-' :: ' ' :: r1 =>
      match matchPropertyKey propertyKeys r1 with
      | some (k, r2) => some (k, r2.dropWhile wsChar)
      | none => none
    | _ => none

/-- Match of the legacy checklist item pattern on a raw line: six or more
leading whitespace characters, a dash, a space, a bracketed space or x,
optional whitespace, then the rest. -/
def oldChecklistMatch (l : List Char) : Option (Bool × List Char) :=
  let ws := l.takeWhile wsChar
  if ws.length < 6 then none
  else
    match l.dropWhile wsChar with
    | '-' :: ' ' :: '[' :: m :: ']' :: r =>
      if m = ' ' || m = 'x' then some (m = 'x', r.dropWhile wsChar) else none
    | _ => none

/-- Returns the suffix following the first occurrence of the two characters
right bracket and left parenthesis. -/
def afterBracketParen : List Char → Option (List Char)
  | [] => none
  | [_] => none
  | ']' :: '(' :: rest => some rest
  | _ :: rest => afterBracketParen rest

/-- Test of the image pattern on a trimmed line: bang, left bracket,
anything, right bracket, left parenthesis, anything, right parenthesis.  A
match exists exactly when the line starts with the bang-bracket pair and
some bracket-parenthesis occurrence is followed by a closing parenthesis;
the first occurrence then works, which is what this tests. -/
def imageMatchB (l : List Char) : Bool :=
  (chars "![").isPrefixOf l &&
    match afterBracketParen (l.drop 2) with
    | some suffix => suffix.contains ')'
    | none => false

/-- Capture of the legacy tags pattern on the property value: from the
leftmost left bracket, greedily to the last right bracket after it. -/
def tagsBracketMatch (v : List Char) : Option (List Char) :=
  match v.dropWhile (fun c => !(c = '[')) with
  | '[' :: rest =>
    match rest.reverse.dropWhile (fun c => !(c = ']')) with
    | ']' :: revInner => some revInner.reverse
    | _ => none
  | _ => none

/-- The ten or eleven characters of the archived marker. -/
def archivedMarker : List Char := chars "[Archived]"

/-- Stripping of the archived suffix from a column title: the endsWith test,
then the anchored replace of optional whitespace plus the marker by the
empty string, then a trim, exactly as the column-header branch does. -/
def stripArchived (t : List Char) : List Char × Bool :=
  if archivedMarker.isSuffixOf t then
    (jsTrim (rdropWhileP wsChar (t.take (t.length - 10))), true)
  else (t, false)

/- ===== Parser state machine (parseMarkdown of the new dialect) ===== -/

/-- Parser state: the accumulator variables of the parseMarkdown loop. The
genCounter is the deterministic supply standing for the Math.random id
generator; those ids are opaque and regenerated on each parse. -/
structure ParseState where
  board : KanbanBoard
  currentColumn : Option KanbanColumn
  currentTask : Option KanbanTask
  inTaskBody : Bool
  inCodeBlock : Bool
  activeListKey : Option ChecklistKey
  collectingDescription : Bool
  genCounter : Nat
deriving DecidableEq, Repr

/-- A generated opaque token (stands for the Math.random base36 token; such
tokens never match the canonical TSK pattern, and neither do these). -/
def generatedId (k : Nat) : String := String.mk (chars "gen" ++ natChars k)

/-- The description clean-up of finalizeCurrentTask: when the description
is truthy it is trimmed, and deleted when trimming empties it. -/
def finalizeDesc (t : KanbanTask) : KanbanTask :=
  match t.description with
  | some d =>
    if d ≠ "" then
      let d' := String.mk (jsTrim d.data)
      if d' = "" then { t with description := none } else { t with description := some d' }
    else t
  | none => t

/-- finalizeCurrentTask at the state level: when a task and a column are
open, the cleaned task is appended to the column. -/
def finalizeState (s : ParseState) : ParseState :=
  match s.currentTask, s.currentColumn with
  | some t, some c =>
    { s with currentColumn := some { c with tasks := c.tasks ++ [finalizeDesc t] } }
  | _, _ => s

/-- The JS description concatenation: existing truthy text gets a newline
and the new text appended, otherwise the new text starts the field. -/
def descAppend (d : Option String) (txt : List Char) : Option String :=
  match d with
  | some s => if s ≠ "" then some (String.mk (s.data ++ '\n' :: txt)) else some (String.mk txt)
  | none => some (String.mk txt)

/-- The trimmed-line exclusion of isTaskTitle for legacy property lines:
optional whitespace (none after trimming), a dash and a space, then a
property key and a colon. -/
def propLikeTrimmed (t : List Char) : Bool :=
  (chars "- ").isPrefixOf t && (matchPropertyKey propertyKeys (t.drop 2)).isSome

/-- The raw-line exclusion of isTaskTitle for legacy checklist items: six
or more whitespace characters, a dash, a space and a bracketed space or
x. -/
def oldChecklistHead (l : List Char) : Bool :=
  6 ≤ (l.takeWhile wsChar).length &&
    match l.dropWhile wsChar with
    | '-' :: ' ' :: '[' :: m :: ']' :: _ => m = ' ' || m = 'x'
    | _ => false

/-- isTaskTitle of the source: a root-level dash line or a trimmed
triple-hash line, excluding legacy property lines, checklist items and
bold section headers. -/
def isTaskTitle (line t : List Char) : Bool :=
  if (chars "- ").isPrefixOf line && (propLikeTrimmed t || oldChecklistHead line) then false
  else if (checklistMatch t).isSome then false
  else if (boldSectionPrefixMatch t).isSome then false
  else ((chars "- ").isPrefixOf line && !((chars "  ").isPrefixOf line)) ||
    (chars "### ").isPrefixOf t

/-- Match of the priority enumeration against an already lowercased
value. -/
def priorityFromLower (l : List Char) : Option Priority :=
  if l = chars "low" then some .low
  else if l = chars "medium" then some .medium
  else if l = chars "high" then some .high
  else none

/-- parseTaskProperty of the source: the value semantics per property
key (the line has already matched propertyLineMatch and value is the
trimmed capture). -/
def applyProperty (task : KanbanTask) (key value : List Char) : KanbanTask :=
  if key = chars "id" then
    if value ≠ [] then { task with id := String.mk value } else task
  else if key = chars "due" then { task with dueDate := some (String.mk value) }
  else if key = chars "tags" then
    match tagsBracketMatch value with
    | some inner =>
      { task with tags := some (((splitOnChar ',' inner).map jsTrim).map String.mk) }
    | none => task
  else if key = chars "priority" then
    if value = chars "low" then { task with priority := some .low }
    else if value = chars "medium" then { task with priority := some .medium }
    else if value = chars "high" then { task with priority := some .high }
    else task
  else if key = chars "workload" then
    if value = chars "Easy" then { task with workload := some .easy }
    else if value = chars "Normal" then { task with workload := some .normal }
    else if value = chars "Hard" then { task with workload := some .hard }
    else if value = chars "Extreme" then { task with workload := some .extreme }
    else task
  else if key = chars "defaultExpanded" then
    { task with defaultExpanded := some (value.map Char.toLower = chars "true") }
  else if key = chars "steps" then { task with steps := some [] }
  else if key = chars "ac" then { task with ac := some [] }
  else if key = chars "verify" then { task with verify := some [] }
  else if key = chars "files" then { task with files := some (String.mk value) }
  else if key = chars "desc" then
    if value ≠ [] then { task with description := descAppend task.description value }
    else task
  else task

/-- The outer rules of the loop body, tried before the task-body rules:
comment skip, fence toggle, in-fence skip, document title, column header
and task header.  Returns none when no outer rule fires. -/
def outerStep (s : ParseState) (line t : List Char) : Option ParseState :=
  if (chars "<!--").isPrefixOf t && (chars "-->").isSuffixOf t then some s
  else if (chars "```").isPrefixOf t then some { s with inCodeBlock := !s.inCodeBlock }
  else if s.inCodeBlock then some s
  else if (chars "# ").isPrefixOf t && s.board.title = "" then
    let s1 := { s with board := { s.board with title := String.mk (jsTrim (t.drop 2)) } }
    let s2 := finalizeState s1
    some { s2 with
      currentTask := none, inTaskBody := false, activeListKey := none,
      collectingDescription := false }
  else if (chars "## ").isPrefixOf t then
    let s1 := { finalizeState s with currentTask := none }
    let s2 := match s1.currentColumn with
      | some c => { s1 with board := { s1.board with columns := s1.board.columns ++ [c] } }
      | none => s1
    let (ctitle, arch) := stripArchived (jsTrim (t.drop 3))
    some { s2 with
      currentColumn := some { id := generatedId s2.genCounter, title := String.mk ctitle,
                              tasks := [], archived := some arch },
      genCounter := s2.genCounter + 1,
      inTaskBody := false, activeListKey := none, collectingDescription := false }
  else if isTaskTitle line t then
    let s1 := finalizeState s
    match s1.currentColumn with
    | some _ =>
      let rawTitle :=
        if (chars "### ").isPrefixOf t then jsTrim (t.drop 4)
        else
          let x := jsTrim (t.drop 2)
          if (chars "[ ] ").isPrefixOf x || (chars "[x] ").isPrefixOf x then jsTrim (x.drop 4)
          else x
      let next := match tskHeaderMatch rawTitle with
        | some (idPart, rest) => (String.mk idPart, String.mk rest, s1.genCounter)
        | none => (generatedId s1.genCounter, String.mk rawTitle, s1.genCounter + 1)
      some { s1 with
        currentTask := some { id := next.1, title := next.2.1, description := some "" },
        genCounter := next.2.2,
        inTaskBody := true, activeListKey := none, collectingDescription := false }
    | none => some s1
  else none

/-- The tail of the task-body rules: image line, collected description,
legacy description continuation, and the boundary case that finalizes the
task and re-presents the line to the outer rules. -/
def taskTailStep (s : ParseState) (task : KanbanTask) (line t : List Char) : ParseState :=
  if imageMatchB t then
    { s with currentTask := some { task with description := descAppend task.description t } }
  else if s.collectingDescription && s.activeListKey = none then
    { s with currentTask := some { task with description := descAppend task.description t } }
  else if task.description.isSome && 4 ≤ (line.takeWhile wsChar).length && t ≠ [] then
    { s with currentTask := some { task with description := descAppend task.description t } }
  else
    let s1 := { finalizeState s with
      currentTask := none, inTaskBody := false,
      activeListKey := none, collectingDescription := false }
    match outerStep s1 line t with
    | some s2 => s2
    | none => s1

/-- The task-body rules of the loop body, in source order: blank line,
blockquote metadata, bold section header, new-format checklist item,
legacy property line, legacy checklist item, then the tail rules. -/
def taskBodyStep (s : ParseState) (task : KanbanTask) (line t : List Char) : ParseState :=
  if t = [] then s
  else if (chars "> ").isPrefixOf t then
    let metaContent := jsTrim (t.drop 2)
    let parts := (splitOnChar '|' metaContent).map jsTrim
    let tagsPart := parts.headD []
    let priorityPart := if 1 < parts.length then parts.getD 1 [] else []
    let task1 := if tagsPart ≠ [] then
        { task with tags := some (((((splitOnChar ',' tagsPart).map jsTrim)).filter
            (fun x => x ≠ [])).map String.mk) }
      else task
    let task2 := match priorityFromLower (priorityPart.map Char.toLower) with
      | some p => { task1 with priority := some p }
      | none => task1
    { s with currentTask := some task2, collectingDescription := true, activeListKey := none }
  else
    match boldSectionPrefixMatch t with
    | some (sec, rest) =>
      let inlineValue := jsTrim rest
      let task' := match sec with
        | .files => if inlineValue ≠ [] then { task with files := some (String.mk inlineValue) }
                    else task
        | .ac => { task with ac := some (task.ac.getD []) }
        | .verifySection => { task with verify := some (task.verify.getD []) }
        | .steps => { task with steps := some (task.steps.getD []) }
      let key : Option ChecklistKey := match sec with
        | .files => none
        | .ac => some .ac
        | .verifySection => some .verify
        | .steps => some .steps
      { s with currentTask := some task', collectingDescription := false, activeListKey := key }
    | none =>
      match checklistMatch t, s.activeListKey with
      | some (done, rest), some key =>
        let task' := match getList task key with
          | some l => setList task key (some (l ++ [⟨String.mk (jsTrim rest), done⟩]))
          | none => task
        { s with currentTask := some task', collectingDescription := false }
      | _, _ =>
        match propertyLineMatch line with
        | some (key, valueRest) =>
          let value := jsTrim valueRest
          let akey : Option ChecklistKey :=
            if key = chars "steps" then some .steps
            else if key = chars "ac" then some .ac
            else if key = chars "verify" then some .verify
            else none
          { s with
            currentTask := some (applyProperty task key value),
            collectingDescription := false, activeListKey := akey }
        | none =>
          match s.activeListKey with
          | some key =>
            match getList task key, oldChecklistMatch line with
            | some l, some (done, rest) =>
              let task' := setList task key (some (l ++ [⟨String.mk (jsTrim rest), done⟩]))
              { s with currentTask := some task' }
            | _, _ => taskTailStep s task line t
          | none => taskTailStep s task line t

/-- One iteration of the parseMarkdown loop on one line. -/
def processLine (s : ParseState) (line : List Char) : ParseState :=
  let t := jsTrim line
  match outerStep s line t with
  | some s' => s'
  | none =>
    match s.currentTask with
    | some task => if s.inTaskBody then taskBodyStep s task line t else s
    | none => s

/-- The initial parser state for a given counter value. -/
def initState (nid : Nat) : ParseState :=
  { board := { title := "", columns := [], nextId := nid },
    currentColumn := none, currentTask := none, inTaskBody := false,
    inCodeBlock := false, activeListKey := none, collectingDescription := false,
    genCounter := 0 }

/-- The parseMarkdown loop over the line list. -/
def runLines (s : ParseState) (ls : List (List Char)) : ParseState :=
  ls.foldl processLine s

/-- The final id pass over one column's tasks: a task whose id does not
match the canonical pattern receives TSK underscore counter and the
counter advances. -/
def assignIdsTasks (n : Nat) : List KanbanTask → List KanbanTask × Nat
  | [] => ([], n)
  | t :: ts =>
    if isCanonicalIdStr t.id then
      let r := assignIdsTasks n ts
      (t :: r.1, r.2)
    else
      let t' := { t with id := String.mk (chars "TSK_" ++ natChars n) }
      let r := assignIdsTasks (n + 1) ts
      (t' :: r.1, r.2)

/-- The final id pass over the columns in order. -/
def assignIdsCols (n : Nat) : List KanbanColumn → List KanbanColumn × Nat
  | [] => ([], n)
  | c :: cs =>
    let rt := assignIdsTasks n c.tasks
    let rc := assignIdsCols rt.2 cs
    ({ c with tasks := rt.1 } :: rc.1, rc.2)

/-- The final id pass over a whole board, starting from its counter. -/
def assignIds (b : KanbanBoard) : KanbanBoard :=
  let r := assignIdsCols b.nextId b.columns
  { b with columns := r.1, nextId := r.2 }

/-- parseMarkdown before the final id pass: newline normalisation, the
counter scan over the raw content, the line loop, and the closing flush of
the open task and column. -/
def rawParse (content : String) : ParseState :=
  let lines := splitOnChar '\n' (normalizeNewlines content.data)
  let s := runLines (initState ((scanNextId content.data).getD 1)) lines
  let s1 := finalizeState s
  match s1.currentColumn with
  | some c => { s1 with board := { s1.board with columns := s1.board.columns ++ [c] } }
  | none => s1

/-- MarkdownKanbanParser.parseMarkdown of the source. -/
def parseMarkdown (content : String) : KanbanBoard :=
  assignIds (rawParse content).board

/- ===== Serializer (generateMarkdown) ===== -/

/-- The taskHeader setting: title renders a triple-hash header, list a
dash line. -/
inductive TaskHeaderFormat
  | title
  | list
deriving DecidableEq, Repr

/-- Join string pieces with a separator, as Array.prototype.join does. -/
def joinSep (sep : List Char) : List (List Char) → List Char
  | [] => []
  | [x] => x
  | x :: y :: rest => x ++ sep ++ joinSep sep (y :: rest)

/-- The serialized text of a priority value. -/
def priorityChars : Priority → List Char
  | .low => chars "low"
  | .medium => chars "medium"
  | .high => chars "high"

/-- The serialized text of a workload value. -/
def workloadChars : Workload → List Char
  | .easy => chars "Easy"
  | .normal => chars "Normal"
  | .hard => chars "Hard"
  | .extreme => chars "Extreme"

/-- The emitted lines of one checklist: the bold header line then one dash
line per item. -/
def checklistPart (header : List Char) : Option (List ChecklistItem) → List Char
  | some l =>
    if 0 < l.length then
      '\n' :: header ++ ['\n'] ++
        (l.map (fun it =>
          chars "- " ++ (if it.completed then chars "[x]" else chars "[ ]") ++
            ' ' :: it.text.data ++ ['\n'])).flatten
    else []
  | none => []

/-- The emitted chunk of one task under a given header format. -/
def taskChunk (fmt : TaskHeaderFormat) (task : KanbanTask) : List Char :=
  let idPref := if task.id ≠ "" && isCanonicalIdStr task.id then task.id.data ++ [' '] else []
  let header := (if fmt = .title then chars "### " else chars "- ") ++
    idPref ++ task.title.data ++ ['\n']
  let metaParts : List (List Char) :=
    (match task.tags with
     | some tags => if 0 < tags.length then [joinSep (chars ", ") (tags.map String.data)] else []
     | none => []) ++
    (match task.priority with
     | some p => [priorityChars p]
     | none => [])
  let metaLine := if metaParts ≠ [] then chars "> " ++ joinSep (chars " | ") metaParts ++ ['\n']
    else []
  let descPart := match task.description with
    | some d => if d ≠ "" && jsTrim d.data ≠ [] then '\n' :: jsTrim d.data ++ ['\n'] else []
    | none => []
  let duePart := match task.dueDate with
    | some d => if d ≠ "" then chars "\n**Due:** " ++ d.data ++ ['\n'] else []
    | none => []
  let workloadPart := match task.workload with
    | some w => chars "\n**Workload:** " ++ workloadChars w ++ ['\n']
    | none => []
  let filesPart := match task.files with
    | some f => if f ≠ "" then chars "\n**Files:** " ++ f.data ++ ['\n'] else []
    | none => []
  header ++ metaLine ++ descPart ++ duePart ++ workloadPart ++
    checklistPart (chars "**Steps:**") task.steps ++
    checklistPart (chars "**AC:**") task.ac ++
    checklistPart (chars "**Verify:**") task.verify ++
    filesPart ++ ['\n']

/-- The emitted chunk of one column: its header line with the archived
marker when the flag is truthy, then its tasks. -/
def columnChunk (fmt : TaskHeaderFormat) (c : KanbanColumn) : List Char :=
  let ctitle := match c.archived with
    | some b => if b then c.title.data ++ chars " [Archived]" else c.title.data
    | none => c.title.data
  chars "## " ++ ctitle ++ chars "\n\n" ++ (c.tasks.map (taskChunk fmt)).flatten

/-- generateMarkdown of the source, at the character level: the counter
comment, the optional title line, then the columns. -/
def generateMarkdownChars (b : KanbanBoard) (fmt : TaskHeaderFormat) : List Char :=
  chars "<!-- next-id: " ++ natChars b.nextId ++ chars " -->\n" ++
    (if b.title ≠ "" then chars "# " ++ b.title.data ++ chars "\n\n" else []) ++
    (b.columns.map (columnChunk fmt)).flatten

/-- MarkdownKanbanParser.generateMarkdown of the source. -/
def generateMarkdown (b : KanbanBoard) (fmt : TaskHeaderFormat) : String :=
  String.mk (generateMarkdownChars b fmt)

/- ===== Claim C2: the concrete parsing scenario ===== -/

/-- The concrete document of the specification scenario. -/
def scenarioDoc : String :=
  "<!-- next-id: 3 -->\n# My Board\n## Todo\n### TSK_1 Write spec\n> backend, urgent | high\n\nThis needs doing.\n**Steps:**\n- [x] outline\n- [ ] write"

/-- The task the scenario must produce. -/
def scenarioTask : KanbanTask :=
  { id := "TSK_1", title := "Write spec", description := some "This needs doing.",
    tags := some ["backend", "urgent"], priority := some .high,
    steps := some [⟨"outline", true⟩, ⟨"write", false⟩] }

/-- C2: parsing the concrete scenario document yields the board My Board
with one unarchived column Todo holding exactly the task TSK_1 Write spec
with the claimed tags, priority, description and steps, and the counter 3
is preserved.  The column id is the opaque generated token. -/
theorem c2_concrete_scenario :
    parseMarkdown scenarioDoc =
      { title := "My Board",
        columns := [{ id := generatedId 0, title := "Todo", tasks := [scenarioTask],
                      archived := some false }],
        nextId := 3 } := by
  decide

/- ===== Claim C1: the stable round trip ===== -/

/-- A document whose task carries a description but neither tags nor
priority (the blockquote line holds only the bar). -/
def c1Doc : String := "## Col\n### TSK_1 T\n> |\nhello"

/-- C1 fails: the first serialize emits the description paragraph of a task
that has neither tags nor priority, but re-parsing that output drops the
paragraph (description collection requires a blockquote metadata line), so
the second parse-serialize pass is not byte-identical to the first. -/
theorem c1_second_pass_not_stable :
    generateMarkdown (parseMarkdown (generateMarkdown (parseMarkdown c1Doc) .title)) .title ≠
      generateMarkdown (parseMarkdown c1Doc) .title := by
  decide

/- ===== Board mutations (KanbanWebviewPanel) ===== -/

/-- The actualStart clamp of Array.prototype.splice: negative starts count
from the end, large starts clamp to the length. -/
def spliceStart (len : Nat) (start : Int) : Nat :=
  if start < 0 then (max ((len : Int) + start) 0).toNat else min start.toNat len

/-- splice(start, 1): the removed element, if any, and the remaining
array. -/
def jsSpliceRemoveOne (l : List α) (start : Int) : Option α × List α :=
  let a := spliceStart l.length start
  (l.get? a, l.eraseIdx a)

/-- splice(start, 0, x): insertion at the clamped position. -/
def jsSpliceInsert (l : List α) (start : Int) (x : α) : List α :=
  let a := spliceStart l.length start
  l.take a ++ x :: l.drop a

/-- Array.prototype.findIndex, as an Option-valued index. -/
def jsFindIndex (p : α → Bool) : List α → Option Nat
  | [] => none
  | a :: as => if p a then some 0 else (jsFindIndex p as).map (· + 1)

/-- findColumn of the panel, as the index of the first matching column. -/
def findColumnIdx (b : KanbanBoard) (cid : String) : Option Nat :=
  jsFindIndex (fun c => c.id == cid) b.columns

/-- The task lookup inside findTask, as the index of the first matching
task of a column. -/
def findTaskIdx (c : KanbanColumn) (tid : String) : Option Nat :=
  jsFindIndex (fun t => t.id == tid) c.tasks

/-- The taskData payload of the addTask and editTask messages. -/
structure TaskData where
  title : String
  description : Option String := none
  tags : Option (List String) := none
  priority : Option Priority := none
  workload : Option Workload := none
  dueDate : Option String := none
  defaultExpanded : Option Bool := none
  steps : Option (List ChecklistItem) := none
deriving DecidableEq, Repr, Inhabited

/-- The id string built by getNextTaskId from the current counter. -/
def newTaskId (b : KanbanBoard) : String :=
  String.mk (chars "TSK_" ++ natChars b.nextId)

/-- The task record built by addTask: tags and steps default to the empty
list, the other absent payload fields stay undefined. -/
def buildTask (id : String) (d : TaskData) : KanbanTask :=
  { id := id, title := d.title, description := d.description,
    tags := some (d.tags.getD []), priority := d.priority, workload := d.workload,
    dueDate := d.dueDate, defaultExpanded := d.defaultExpanded,
    steps := some (d.steps.getD []) }

/-- addTask of the panel: no-op when the column id is not found, otherwise
the new task is appended and the counter advances. -/
def addTask (b : KanbanBoard) (columnId : String) (d : TaskData) : KanbanBoard :=
  match findColumnIdx b columnId with
  | some i =>
    let col := b.columns.getD i default
    let t := buildTask (newTaskId b) d
    { b with columns := b.columns.set i { col with tasks := col.tasks ++ [t] },
             nextId := b.nextId + 1 }
  | none => b

/-- deleteTask of the panel. -/
def deleteTask (b : KanbanBoard) (taskId columnId : String) : KanbanBoard :=
  match findColumnIdx b columnId with
  | some i =>
    let col := b.columns.getD i default
    match findTaskIdx col taskId with
    | some k => { b with columns := b.columns.set i { col with tasks := col.tasks.eraseIdx k } }
    | none => b
  | none => b

/-- The Object.assign of editTask: every payload field is written, the id
and the fields absent from the payload are untouched. -/
def editApply (t : KanbanTask) (d : TaskData) : KanbanTask :=
  { t with
    title := d.title, description := d.description,
    tags := some (d.tags.getD []), priority := d.priority, workload := d.workload,
    dueDate := d.dueDate, defaultExpanded := d.defaultExpanded,
    steps := some (d.steps.getD []) }

/-- editTask of the panel. -/
def editTask (b : KanbanBoard) (taskId columnId : String) (d : TaskData) : KanbanBoard :=
  match findColumnIdx b columnId with
  | some i =>
    let col := b.columns.getD i default
    match findTaskIdx col taskId with
    | some k =>
      let t' := editApply (col.tasks.getD k default) d
      { b with columns := b.columns.set i { col with tasks := col.tasks.set k t' } }
    | none => b
  | none => b

/-- moveTask of the panel: both columns are looked up first; when the two
ids name the same column the insertion works on the array the task was
already removed from, as the aliased JS arrays do. -/
def moveTask (b : KanbanBoard) (taskId fromColumnId toColumnId : String)
    (newIndex : Int) : KanbanBoard :=
  match findColumnIdx b fromColumnId, findColumnIdx b toColumnId with
  | some i, some j =>
    let fromCol := b.columns.getD i default
    match findTaskIdx fromCol taskId with
    | some k =>
      let task := fromCol.tasks.getD k default
      let removedTasks := fromCol.tasks.eraseIdx k
      if i = j then
        { b with columns :=
            b.columns.set i { fromCol with tasks := jsSpliceInsert removedTasks newIndex task } }
      else
        let toCol := b.columns.getD j default
        let cols1 := b.columns.set i { fromCol with tasks := removedTasks }
        { b with columns :=
            cols1.set j { toCol with tasks := jsSpliceInsert toCol.tasks newIndex task } }
    | none => b
  | _, _ => b

/-- updateTaskStep of the panel: no-op when the steps field is undefined or
the index is out of range. -/
def updateTaskStep (b : KanbanBoard) (taskId columnId : String) (stepIndex : Int)
    (completed : Bool) : KanbanBoard :=
  match findColumnIdx b columnId with
  | some i =>
    let col := b.columns.getD i default
    match findTaskIdx col taskId with
    | some k =>
      let t := col.tasks.getD k default
      match t.steps with
      | some l =>
        if stepIndex < 0 || (l.length : Int) ≤ stepIndex then b
        else
          let l' := l.set stepIndex.toNat { l.getD stepIndex.toNat default with completed := completed }
          { b with columns := b.columns.set i { col with tasks := col.tasks.set k { t with steps := some l' } } }
      | none => b
    | none => b
  | none => b

/-- updateChecklistItem of the panel.  The webview only ever sends the keys
steps, ac and verify, modeled by the ChecklistKey enumeration; an undefined
list or an out-of-range index is a no-op. -/
def updateChecklistItem (b : KanbanBoard) (taskId columnId : String) (listKey : ChecklistKey)
    (stepIndex : Int) (completed : Bool) : KanbanBoard :=
  match findColumnIdx b columnId with
  | some i =>
    let col := b.columns.getD i default
    match findTaskIdx col taskId with
    | some k =>
      let t := col.tasks.getD k default
      match getList t listKey with
      | some l =>
        if stepIndex < 0 || (l.length : Int) ≤ stepIndex then b
        else
          let l' := l.set stepIndex.toNat { l.getD stepIndex.toNat default with completed := completed }
          { b with columns := b.columns.set i { col with tasks := col.tasks.set k (setList t listKey (some l')) } }
      | none => b
    | none => b
  | none => b

/-- reorderTaskSteps of the panel: out-of-range entries of the new order
are dropped by the filter, in-range entries pick the original items. -/
def reorderTaskSteps (b : KanbanBoard) (taskId columnId : String)
    (newOrder : List Int) : KanbanBoard :=
  match findColumnIdx b columnId with
  | some i =>
    let col := b.columns.getD i default
    match findTaskIdx col taskId with
    | some k =>
      let t := col.tasks.getD k default
      match t.steps with
      | some l =>
        let l' := (newOrder.filter (fun x => decide (0 ≤ x) && decide (x < (l.length : Int)))).map
          (fun x => l.getD x.toNat default)
        { b with columns := b.columns.set i { col with tasks := col.tasks.set k { t with steps := some l' } } }
      | none => b
    | none => b
  | none => b

/-- addColumn of the panel; the generated token is taken as a parameter
standing for the Math.random call, and the archived field is left
undefined. -/
def addColumn (b : KanbanBoard) (newId title : String) : KanbanBoard :=
  { b with columns := b.columns ++ [{ id := newId, title := title, tasks := [] }] }

/-- Sentinel for the JS undefined value that splice inserts into the
columns array when the removal start lies past the end; the JS board is
then ill-typed, which this record merely marks. -/
def undefinedColumn : KanbanColumn :=
  { id := "undefined", title := "undefined", tasks := [] }

/-- moveColumn of the panel: no bounds check, raw splice semantics. -/
def moveColumn (b : KanbanBoard) (fromIdx toIdx : Int) : KanbanBoard :=
  if fromIdx = toIdx then b
  else
    let r := jsSpliceRemoveOne b.columns fromIdx
    match r.1 with
    | some c => { b with columns := jsSpliceInsert r.2 toIdx c }
    | none => { b with columns := jsSpliceInsert r.2 toIdx undefinedColumn }

/-- toggleColumnArchive of the panel. -/
def toggleColumnArchive (b : KanbanBoard) (cid : String) (archived : Bool) : KanbanBoard :=
  match findColumnIdx b cid with
  | some i =>
    { b with columns := b.columns.set i { b.columns.getD i default with archived := some archived } }
  | none => b

/- ===== Claim C5: out-of-range and missing-target mutations ===== -/

/-- A two-column board for the moveColumn counterexample. -/
def c5Board : KanbanBoard :=
  { title := "B",
    columns := [{ id := "c1", title := "A", tasks := [] },
                { id := "c2", title := "B2", tasks := [] }],
    nextId := 1 }

/-- C5 fails for moveColumn: the index minus one is outside the columns
sequence, yet the mutation reorders the board (splice counts negative
indices from the end) instead of leaving it unchanged. -/
theorem c5_moveColumn_out_of_range_changes_board :
    moveColumn c5Board (-1) 0 ≠ c5Board := by
  decide

/-- C5 as amended: each mutation that locates its target by column or
task id is a no-op whenever the lookup fails, for every board: a missing
column (every such mutation, including a missing destination column of
moveTask), a missing task inside an existing column, and an out-of-range
checklist-item index; moveColumn is excluded since it performs no bounds
check (see the counterexample). -/
theorem c5_amended_missing_target_noop :
    (∀ (b : KanbanBoard) (cid : String) (d : TaskData),
      findColumnIdx b cid = none → addTask b cid d = b) ∧
    (∀ (b : KanbanBoard) (tid cid : String),
      findColumnIdx b cid = none → deleteTask b tid cid = b) ∧
    (∀ (b : KanbanBoard) (tid cid : String) (d : TaskData),
      findColumnIdx b cid = none → editTask b tid cid d = b) ∧
    (∀ (b : KanbanBoard) (tid cid cid2 : String) (idx : Int),
      findColumnIdx b cid = none → moveTask b tid cid cid2 idx = b) ∧
    (∀ (b : KanbanBoard) (tid cid cid2 : String) (idx : Int),
      findColumnIdx b cid2 = none → moveTask b tid cid cid2 idx = b) ∧
    (∀ (b : KanbanBoard) (tid cid : String) (idx : Int) (comp : Bool),
      findColumnIdx b cid = none → updateTaskStep b tid cid idx comp = b) ∧
    (∀ (b : KanbanBoard) (tid cid : String) (key : ChecklistKey) (idx : Int) (comp : Bool),
      findColumnIdx b cid = none → updateChecklistItem b tid cid key idx comp = b) ∧
    (∀ (b : KanbanBoard) (tid cid : String) (ord : List Int),
      findColumnIdx b cid = none → reorderTaskSteps b tid cid ord = b) ∧
    (∀ (b : KanbanBoard) (cid : String) (arch : Bool),
      findColumnIdx b cid = none → toggleColumnArchive b cid arch = b) ∧
    (∀ (b : KanbanBoard) (tid cid : String) (i : Nat),
      findColumnIdx b cid = some i → findTaskIdx (b.columns.getD i default) tid = none →
      deleteTask b tid cid = b) ∧
    (∀ (b : KanbanBoard) (tid cid : String) (d : TaskData) (i : Nat),
      findColumnIdx b cid = some i → findTaskIdx (b.columns.getD i default) tid = none →
      editTask b tid cid d = b) ∧
    (∀ (b : KanbanBoard) (tid cid cid2 : String) (idx : Int) (i : Nat),
      findColumnIdx b cid = some i → findTaskIdx (b.columns.getD i default) tid = none →
      moveTask b tid cid cid2 idx = b) ∧
    (∀ (b : KanbanBoard) (tid cid : String) (idx : Int) (comp : Bool) (i : Nat),
      findColumnIdx b cid = some i → findTaskIdx (b.columns.getD i default) tid = none →
      updateTaskStep b tid cid idx comp = b) ∧
    (∀ (b : KanbanBoard) (tid cid : String) (key : ChecklistKey) (idx : Int) (comp : Bool) (i : Nat),
      findColumnIdx b cid = some i → findTaskIdx (b.columns.getD i default) tid = none →
      updateChecklistItem b tid cid key idx comp = b) ∧
    (∀ (b : KanbanBoard) (tid cid : String) (ord : List Int) (i : Nat),
      findColumnIdx b cid = some i → findTaskIdx (b.columns.getD i default) tid = none →
      reorderTaskSteps b tid cid ord = b) ∧
    (∀ (b : KanbanBoard) (tid cid : String) (idx : Int) (comp : Bool) (i k : Nat)
      (l : List ChecklistItem),
      findColumnIdx b cid = some i →
      findTaskIdx (b.columns.getD i default) tid = some k →
      ((b.columns.getD i default).tasks.getD k default).steps = some l →
      idx < 0 ∨ (l.length : Int) ≤ idx →
      updateTaskStep b tid cid idx comp = b) ∧
    (∀ (b : KanbanBoard) (tid cid : String) (key : ChecklistKey) (idx : Int) (comp : Bool)
      (i k : Nat) (l : List ChecklistItem),
      findColumnIdx b cid = some i →
      findTaskIdx (b.columns.getD i default) tid = some k →
      getList ((b.columns.getD i default).tasks.getD k default) key = some l →
      idx < 0 ∨ (l.length : Int) ≤ idx →
      updateChecklistItem b tid cid key idx comp = b) := by
  refine ⟨?_, ?_, ?_, ?_, ?_, ?_, ?_, ?_, ?_, ?_, ?_, ?_, ?_, ?_, ?_, ?_, ?_⟩
  · intro b cid d h1
    simp [addTask, h1]
  · intro b tid cid h1
    simp [deleteTask, h1]
  · intro b tid cid d h1
    simp [editTask, h1]
  · intro b tid cid cid2 idx h1
    simp [moveTask, h1]
  · intro b tid cid cid2 idx h1
    cases hfc : findColumnIdx b cid with
    | none => simp [moveTask, hfc]
    | some j => simp [moveTask, hfc, h1]
  · intro b tid cid idx comp h1
    simp [updateTaskStep, h1]
  · intro b tid cid key idx comp h1
    simp [updateChecklistItem, h1]
  · intro b tid cid ord h1
    simp [reorderTaskSteps, h1]
  · intro b cid arch h1
    simp [toggleColumnArchive, h1]
  · intro b tid cid i h2 h3
    simp only [List.getD_eq_getElem?_getD] at h3
    simp [deleteTask, h2, h3]
  · intro b tid cid d i h2 h3
    simp only [List.getD_eq_getElem?_getD] at h3
    simp [editTask, h2, h3]
  · intro b tid cid cid2 idx i h2 h3
    simp only [List.getD_eq_getElem?_getD] at h3
    cases hfc : findColumnIdx b cid2 with
    | none => simp [moveTask, hfc, h2]
    | some j => simp [moveTask, hfc, h2, h3]
  · intro b tid cid idx comp i h2 h3
    simp only [List.getD_eq_getElem?_getD] at h3
    simp [updateTaskStep, h2, h3]
  · intro b tid cid key idx comp i h2 h3
    simp only [List.getD_eq_getElem?_getD] at h3
    simp [updateChecklistItem, h2, h3]
  · intro b tid cid ord i h2 h3
    simp only [List.getD_eq_getElem?_getD] at h3
    simp [reorderTaskSteps, h2, h3]
  · intro b tid cid idx comp i k l h4 h5 h6 h8
    have hcond : (decide (idx < 0) || decide ((l.length : Int) ≤ idx)) = true := by
      rcases h8 with h | h
      · simp [h]
      · simp [h]
    simp only [List.getD_eq_getElem?_getD] at h5 h6
    simp [updateTaskStep, h4, h5, h6, hcond]
  · intro b tid cid key idx comp i k l h4 h5 h6 h8
    have hcond : (decide (idx < 0) || decide ((l.length : Int) ≤ idx)) = true := by
      rcases h8 with h | h
      · simp [h]
      · simp [h]
    simp only [List.getD_eq_getElem?_getD] at h5 h6
    simp [updateChecklistItem, h4, h5, h6, hcond]

/-- Witness board for the amended C5 theorem. -/
def c5WBoard : KanbanBoard :=
  { title := "B",
    columns := [{ id := "c1", title := "A",
                  tasks := [{ id := "TSK_1", title := "t", steps := some [⟨"s", false⟩] }] }],
    nextId := 2 }

theorem c5_amended_missing_target_noop_witness :
    addTask c5WBoard "zz" default = c5WBoard ∧
    deleteTask c5WBoard "TSK_1" "zz" = c5WBoard ∧
    editTask c5WBoard "TSK_1" "zz" default = c5WBoard ∧
    moveTask c5WBoard "TSK_1" "zz" "c1" 0 = c5WBoard ∧
    moveTask c5WBoard "TSK_1" "c1" "zz" 0 = c5WBoard ∧
    updateTaskStep c5WBoard "TSK_1" "zz" 0 true = c5WBoard ∧
    updateChecklistItem c5WBoard "TSK_1" "zz" .steps 0 true = c5WBoard ∧
    reorderTaskSteps c5WBoard "TSK_1" "zz" [] = c5WBoard ∧
    toggleColumnArchive c5WBoard "zz" true = c5WBoard ∧
    deleteTask c5WBoard "nope" "c1" = c5WBoard ∧
    editTask c5WBoard "nope" "c1" default = c5WBoard ∧
    moveTask c5WBoard "nope" "c1" "c1" 0 = c5WBoard ∧
    updateTaskStep c5WBoard "nope" "c1" 0 true = c5WBoard ∧
    updateChecklistItem c5WBoard "nope" "c1" .steps 0 true = c5WBoard ∧
    reorderTaskSteps c5WBoard "nope" "c1" [] = c5WBoard ∧
    updateTaskStep c5WBoard "TSK_1" "c1" 5 true = c5WBoard ∧
    updateChecklistItem c5WBoard "TSK_1" "c1" .steps 5 true = c5WBoard := by
  obtain ⟨hA, hB, hC, hD, hE, hF, hG, hH, hI, hJ, hK, hL, hM, hN, hO, hP, hQ⟩ :=
    c5_amended_missing_target_noop
  exact ⟨hA c5WBoard "zz" default (by decide),
    hB c5WBoard "TSK_1" "zz" (by decide),
    hC c5WBoard "TSK_1" "zz" default (by decide),
    hD c5WBoard "TSK_1" "zz" "c1" 0 (by decide),
    hE c5WBoard "TSK_1" "c1" "zz" 0 (by decide),
    hF c5WBoard "TSK_1" "zz" 0 true (by decide),
    hG c5WBoard "TSK_1" "zz" .steps 0 true (by decide),
    hH c5WBoard "TSK_1" "zz" [] (by decide),
    hI c5WBoard "zz" true (by decide),
    hJ c5WBoard "nope" "c1" 0 (by decide) (by decide),
    hK c5WBoard "nope" "c1" default 0 (by decide) (by decide),
    hL c5WBoard "nope" "c1" "c1" 0 0 (by decide) (by decide),
    hM c5WBoard "nope" "c1" 0 true 0 (by decide) (by decide),
    hN c5WBoard "nope" "c1" .steps 0 true 0 (by decide) (by decide),
    hO c5WBoard "nope" "c1" [] 0 (by decide) (by decide),
    hP c5WBoard "TSK_1" "c1" 5 true 0 0 [⟨"s", false⟩]
      (by decide) (by decide) (by decide) (by decide),
    hQ c5WBoard "TSK_1" "c1" .steps 5 true 0 0 [⟨"s", false⟩]
      (by decide) (by decide) (by decide) (by decide)⟩

/- ===== Claim C3: identifier allocation ===== -/

/-- finalizeCurrentTask never touches the board record. -/
lemma finalizeState_board (s : ParseState) : (finalizeState s).board = s.board := by
  cases h1 : s.currentTask <;> cases h2 : s.currentColumn <;> simp [finalizeState, h1, h2]

/-- No outer rule of the loop changes the counter field. -/
lemma outerStep_nextId (s : ParseState) (line t : List Char) (s' : ParseState)
    (h : outerStep s line t = some s') : s'.board.nextId = s.board.nextId := by
  simp only [outerStep] at h
  repeat' split at h
  all_goals first
    | exact Option.noConfusion h
    | (cases h; simp [finalizeState_board])

/-- The tail task-body rules never change the counter field. -/
lemma taskTailStep_nextId (s : ParseState) (task : KanbanTask) (line t : List Char) :
    (taskTailStep s task line t).board.nextId = s.board.nextId := by
  simp only [taskTailStep]
  repeat' split
  all_goals first
    | rfl
    | (rename_i s2 hs2; rw [outerStep_nextId _ _ _ _ hs2]; simp [finalizeState_board])
    | simp [finalizeState_board]

/-- The task-body rules never change the counter field. -/
lemma taskBodyStep_nextId (s : ParseState) (task : KanbanTask) (line t : List Char) :
    (taskBodyStep s task line t).board.nextId = s.board.nextId := by
  simp only [taskBodyStep]
  repeat' split
  all_goals first | rfl | apply taskTailStep_nextId

/-- The whole line loop never changes the counter field. -/
lemma processLine_nextId (s : ParseState) (l : List Char) :
    (processLine s l).board.nextId = s.board.nextId := by
  simp only [processLine]
  split
  · rename_i s' hs'
    exact outerStep_nextId _ _ _ _ hs'
  · split
    · split
      · apply taskBodyStep_nextId
      · rfl
    · rfl

/-- Counter preservation over the folded line list. -/
lemma runLines_nextId (ls : List (List Char)) (s : ParseState) :
    (runLines s ls).board.nextId = s.board.nextId := by
  induction ls generalizing s with
  | nil => rfl
  | cons l ls ih =>
    rw [show runLines s (l :: ls) = runLines (processLine s l) ls from rfl, ih,
      processLine_nextId]

/-- The counter of the pre-pass board is the scanned comment value, with
default one. -/
lemma rawParse_nextId (content : String) :
    (rawParse content).board.nextId = (scanNextId content.data).getD 1 := by
  simp only [rawParse]
  split <;> simp [finalizeState_board, runLines_nextId, initState]

/-- Count of the tasks of a list whose id does not match the canonical
pattern. -/
def nonCanonCountTasks : List KanbanTask → Nat
  | [] => 0
  | t :: ts => (if isCanonicalIdStr t.id then 0 else 1) + nonCanonCountTasks ts

/-- Count of the non-canonical task ids of a column list, in order. -/
def nonCanonCountCols : List KanbanColumn → Nat
  | [] => 0
  | c :: cs => nonCanonCountTasks c.tasks + nonCanonCountCols cs

/-- What the final pass does to one task given the counter value reached at
its position: a canonical id is kept, any other id becomes TSK underscore
counter. -/
def assignSpecTask (n : Nat) (t : KanbanTask) : KanbanTask :=
  if isCanonicalIdStr t.id then t
  else { t with id := String.mk (chars "TSK_" ++ natChars n) }

/-- Number of non-canonical ids strictly before position i j in
column-major task order. -/
def priorNonCanon (cs : List KanbanColumn) (i j : Nat) : Nat :=
  nonCanonCountCols (cs.take i) + nonCanonCountTasks ((cs.getD i default).tasks.take j)

/-- The counter after the task pass advances by the non-canonical count. -/
lemma assignIdsTasks_counter (n : Nat) (ts : List KanbanTask) :
    (assignIdsTasks n ts).2 = n + nonCanonCountTasks ts := by
  induction ts generalizing n with
  | nil => simp [assignIdsTasks, nonCanonCountTasks]
  | cons t ts ih =>
    by_cases hc : isCanonicalIdStr t.id
    · simp [assignIdsTasks, nonCanonCountTasks, hc, ih]
    · simp [assignIdsTasks, nonCanonCountTasks, hc, ih]
      omega

/-- The task pass keeps a canonical head unchanged. -/
lemma assignIdsTasks_cons_canon (n : Nat) (t : KanbanTask) (ts : List KanbanTask)
    (hc : isCanonicalIdStr t.id = true) :
    (assignIdsTasks n (t :: ts)).1 = t :: (assignIdsTasks n ts).1 := by
  simp [assignIdsTasks, hc]

lemma assignIdsTasks_cons_noncanon (n : Nat) (t : KanbanTask) (ts : List KanbanTask)
    (hc : ¬ isCanonicalIdStr t.id = true) :
    (assignIdsTasks n (t :: ts)).1 =
      { t with id := String.mk (chars "TSK_" ++ natChars n) } :: (assignIdsTasks (n + 1) ts).1 := by
  simp [assignIdsTasks, hc]

/-- Per-position characterisation of the task pass. -/
lemma assignIdsTasks_get (n : Nat) (ts : List KanbanTask) (j : Nat) :
    ((assignIdsTasks n ts).1)[j]? =
      (ts[j]?).map (fun t => assignSpecTask (n + nonCanonCountTasks (ts.take j)) t) := by
  induction ts generalizing n j with
  | nil => simp [assignIdsTasks]
  | cons t ts ih =>
    by_cases hc : isCanonicalIdStr t.id
    · cases j with
      | zero => simp [assignIdsTasks_cons_canon n t ts hc, assignSpecTask, hc, nonCanonCountTasks]
      | succ j =>
        rw [assignIdsTasks_cons_canon n t ts hc, List.getElem?_cons_succ,
          List.getElem?_cons_succ, List.take_succ_cons, ih]
        simp [nonCanonCountTasks, hc]
    · cases j with
      | zero =>
        simp [assignIdsTasks_cons_noncanon n t ts hc, assignSpecTask, hc, nonCanonCountTasks]
      | succ j =>
        rw [assignIdsTasks_cons_noncanon n t ts hc, List.getElem?_cons_succ,
          List.getElem?_cons_succ, List.take_succ_cons, ih]
        simp [nonCanonCountTasks, hc, Nat.add_assoc]

/-- The counter after the column pass advances by the total non-canonical
count. -/
lemma assignIdsCols_counter (n : Nat) (cs : List KanbanColumn) :
    (assignIdsCols n cs).2 = n + nonCanonCountCols cs := by
  induction cs generalizing n with
  | nil => simp [assignIdsCols, nonCanonCountCols]
  | cons c cs ih =>
    simp [assignIdsCols, nonCanonCountCols, assignIdsTasks_counter, ih]
    omega

/-- Per-column characterisation of the column pass. -/
lemma assignIdsCols_get (n : Nat) (cs : List KanbanColumn) (i : Nat) :
    ((assignIdsCols n cs).1)[i]? =
      (cs[i]?).map (fun c =>
        { c with tasks := (assignIdsTasks (n + nonCanonCountCols (cs.take i)) c.tasks).1 }) := by
  induction cs generalizing n i with
  | nil => simp [assignIdsCols]
  | cons c cs ih =>
    have hcons : (assignIdsCols n (c :: cs)).1 =
        { c with tasks := (assignIdsTasks n c.tasks).1 } ::
          (assignIdsCols (assignIdsTasks n c.tasks).2 cs).1 := by
      simp [assignIdsCols]
    cases i with
    | zero => simp [hcons, nonCanonCountCols]
    | succ i =>
      rw [hcons, List.getElem?_cons_succ, List.getElem?_cons_succ, ih, List.take_succ_cons]
      simp [assignIdsTasks_counter, nonCanonCountCols, Nat.add_assoc]

/-- C3: the counter is initialised from the first next-id comment found
anywhere in the text (default one); the final pass leaves every task with a
canonical id unchanged and gives every other task the id TSK underscore
counter, where the counter value at a position is the initial counter plus
the number of non-canonical ids before it in column-major task order; the
board's final counter is the initial one plus the total number of
assignments. -/
theorem c3_identifier_allocation (content : String) (i j : Nat) :
    (rawParse content).board.nextId = (scanNextId content.data).getD 1 ∧
    (parseMarkdown content).nextId =
      (rawParse content).board.nextId + nonCanonCountCols (rawParse content).board.columns ∧
    ((parseMarkdown content).columns[i]?.bind (fun c => c.tasks[j]?)) =
      ((rawParse content).board.columns[i]?.bind (fun c => c.tasks[j]?)).map
        (assignSpecTask
          ((rawParse content).board.nextId + priorNonCanon (rawParse content).board.columns i j)) := by
  refine ⟨rawParse_nextId content, ?_, ?_⟩
  · simp [parseMarkdown, assignIds, assignIdsCols_counter]
  · simp only [parseMarkdown, assignIds]
    rw [assignIdsCols_get]
    cases hci : (rawParse content).board.columns[i]? with
    | none => simp
    | some c =>
      simp only [Option.map_some', Option.some_bind]
      rw [assignIdsTasks_get]
      simp [priorNonCanon, List.getD_eq_getElem?_getD, hci, Nat.add_assoc]

/- ===== Claim C6: counter monotonicity over task creations ===== -/

/-- A found index is inside the list. -/
lemma findIdx?_bound {α : Type} {p : α → Bool} :
    ∀ {l : List α} {i : Nat}, jsFindIndex p l = some i → i < l.length := by
  intro l
  induction l with
  | nil => intro i h; simp [jsFindIndex] at h
  | cons a as ih =>
    intro i h
    rw [jsFindIndex] at h
    by_cases hp : p a
    · simp [hp] at h
      simp only [List.length_cons]
      omega
    · simp [hp] at h
      obtain ⟨j, hj, rfl⟩ := h
      have := ih hj
      simp only [List.length_cons]
      omega

/-- The element at a found index exists and satisfies the predicate. -/
lemma findIdx?_found {α : Type} {p : α → Bool} :
    ∀ {l : List α} {i : Nat}, jsFindIndex p l = some i →
      ∃ x, l[i]? = some x ∧ p x = true := by
  intro l
  induction l with
  | nil => intro i h; simp [jsFindIndex] at h
  | cons a as ih =>
    intro i h
    rw [jsFindIndex] at h
    by_cases hp : p a
    · simp [hp] at h
      exact ⟨a, by simp [← h], hp⟩
    · simp [hp] at h
      obtain ⟨j, hj, rfl⟩ := h
      obtain ⟨x, hx, hpx⟩ := ih hj
      exact ⟨x, by simpa using hx, hpx⟩

/-- Writing back the element already present changes nothing. -/
lemma set_getD_self {α : Type} :
    ∀ (l : List α) (i : Nat) (d : α), i < l.length → l.set i (l.getD i d) = l := by
  intro l
  induction l with
  | nil => intro i d h; simp at h
  | cons a as ih =>
    intro i d h
    cases i with
    | zero => simp [List.getD]
    | succ i =>
      simp only [List.length_cons] at h
      have h2 := ih i d (by omega)
      calc (a :: as).set (i + 1) ((a :: as).getD (i + 1) d)
          = a :: as.set i (as.getD i d) := by simp [List.getD_cons_succ]
        _ = a :: as := by rw [h2]

/-- The column search only looks at column ids. -/
lemma findIdx?_congr_ids (x : String) :
    ∀ (l₁ l₂ : List KanbanColumn), l₁.map KanbanColumn.id = l₂.map KanbanColumn.id →
      jsFindIndex (fun c => c.id == x) l₁ = jsFindIndex (fun c => c.id == x) l₂ := by
  intro l₁
  induction l₁ with
  | nil => intro l₂ h; cases l₂ <;> simp_all
  | cons a as ih =>
    intro l₂ h
    cases l₂ with
    | nil => simp at h
    | cons b bs =>
      simp only [List.map_cons, List.cons.injEq] at h
      rw [jsFindIndex, jsFindIndex, h.1]
      rw [ih bs h.2]

/-- addTask does not change the sequence of column ids. -/
lemma addTask_ids_map (b : KanbanBoard) (cid : String) (d : TaskData) :
    (addTask b cid d).columns.map KanbanColumn.id = b.columns.map KanbanColumn.id := by
  unfold addTask
  cases h : findColumnIdx b cid with
  | none => rfl
  | some i =>
    have hilt : i < b.columns.length := findIdx?_bound h
    simp only [List.map_set]
    have : (b.columns.getD i default).id =
        (b.columns.map KanbanColumn.id).getD i (default : KanbanColumn).id := by
      simp [List.getD_eq_getElem?_getD, List.getElem?_map]
    rw [this, set_getD_self _ _ _ (by simpa using hilt)]

/-- Column lookups are unchanged by addTask. -/
lemma findColumnIdx_addTask (b : KanbanBoard) (cid x : String) (d : TaskData) :
    findColumnIdx (addTask b cid d) x = findColumnIdx b x :=
  findIdx?_congr_ids x _ _ (addTask_ids_map b cid d)

/-- Iterated addTask requests, recording the id of each task actually
created. -/
def addTaskAll (b : KanbanBoard) : List (String × TaskData) → KanbanBoard × List String
  | [] => (b, [])
  | r :: reqs =>
    let b' := addTask b r.1 r.2
    let rec' := addTaskAll b' reqs
    (rec'.1,
      (match findColumnIdx b r.1 with
       | some _ => [newTaskId b]
       | none => []) ++ rec'.2)

/-- Iterating the instrumented version is iterating addTask. -/
lemma addTaskAll_fst : ∀ (reqs : List (String × TaskData)) (b : KanbanBoard),
    (addTaskAll b reqs).1 = reqs.foldl (fun bb r => addTask bb r.1 r.2) b := by
  intro reqs
  induction reqs with
  | nil => intro b; rfl
  | cons r reqs ih => intro b; simp [addTaskAll, ih]

/-- The digit list reconstructs its number (fuel version). -/
lemma ofDecDigits_decDigitsAux : ∀ (fuel n : Nat), n ≤ fuel →
    ofDecDigits (decDigitsAux fuel n) = n := by
  intro fuel
  induction fuel with
  | zero =>
    intro n h
    interval_cases n
    simp [decDigitsAux, ofDecDigits]
  | succ f ih =>
    intro n h
    cases n with
    | zero => simp [decDigitsAux, ofDecDigits]
    | succ m =>
      have hd : (m + 1) / 10 ≤ f := by
        have := Nat.div_lt_self (Nat.succ_pos m) (by norm_num : 1 < 10)
        omega
      simp only [decDigitsAux, ofDecDigits]
      rw [ih _ hd]
      exact Nat.mod_add_div _ _

/-- The digit list reconstructs its number. -/
lemma ofDecDigits_decDigits (n : Nat) : ofDecDigits (decDigits n) = n :=
  ofDecDigits_decDigitsAux n n le_rfl

/-- All decimal digits are below ten (fuel version). -/
lemma decDigitsAux_lt_ten : ∀ (fuel n : Nat), ∀ d ∈ decDigitsAux fuel n, d < 10 := by
  intro fuel
  induction fuel with
  | zero => intro n d hd; simp [decDigitsAux] at hd
  | succ f ih =>
    intro n d hd
    cases n with
    | zero => simp [decDigitsAux] at hd
    | succ m =>
      simp only [decDigitsAux, List.mem_cons] at hd
      rcases hd with rfl | hd
      · exact Nat.mod_lt _ (by norm_num)
      · exact ih _ d hd

/-- Decimal digit characters are distinct for distinct digits. -/
lemma digitChar_inj (d e : Nat) (hd : d < 10) (he : e < 10)
    (h : Char.ofNat (48 + d) = Char.ofNat (48 + e)) : d = e := by
  interval_cases d <;> interval_cases e <;> first | rfl | exact absurd h (by decide)

/-- Mapping digits to characters is injective on digit lists. -/
lemma map_digitChar_inj : ∀ (l1 l2 : List Nat), (∀ d ∈ l1, d < 10) → (∀ d ∈ l2, d < 10) →
    l1.map (fun d => Char.ofNat (48 + d)) = l2.map (fun d => Char.ofNat (48 + d)) →
    l1 = l2 := by
  intro l1
  induction l1 with
  | nil => intro l2 _ _ h; cases l2 <;> simp_all
  | cons d l ih =>
    intro l2 h1 h2 h
    cases l2 with
    | nil => simp at h
    | cons e l2 =>
      simp only [List.map_cons, List.cons.injEq] at h
      have hde := digitChar_inj d e (h1 d (by simp)) (h2 e (by simp)) h.1
      subst hde
      rw [ih l2 (fun x hx => h1 x (by simp [hx])) (fun x hx => h2 x (by simp [hx])) h.2]

/-- The JS decimal rendering is injective. -/
lemma natChars_inj (a b : Nat) (h : natChars a = natChars b) : a = b := by
  unfold natChars at h
  by_cases ha : a = 0 <;> by_cases hb : b = 0
  · omega
  · exfalso
    rw [if_pos ha, if_neg hb] at h
    have h' : (decDigits b).map (fun d => Char.ofNat (48 + d)) = ['0'] := by
      have := congrArg List.reverse h
      simpa using this.symm
    have hdb : decDigits b = [0] := by
      apply map_digitChar_inj _ _ (decDigitsAux_lt_ten b b) (by simp)
      rw [show decDigitsAux b b = decDigits b from rfl, h']
      rfl
    have hb0 := ofDecDigits_decDigits b
    rw [hdb] at hb0
    simp [ofDecDigits] at hb0
    omega
  · exfalso
    rw [if_neg ha, if_pos hb] at h
    have h' : (decDigits a).map (fun d => Char.ofNat (48 + d)) = ['0'] := by
      have := congrArg List.reverse h
      simpa using this
    have hda : decDigits a = [0] := by
      apply map_digitChar_inj _ _ (decDigitsAux_lt_ten a a) (by simp)
      rw [show decDigitsAux a a = decDigits a from rfl, h']
      rfl
    have ha0 := ofDecDigits_decDigits a
    rw [hda] at ha0
    simp [ofDecDigits] at ha0
    omega
  · rw [if_neg ha, if_neg hb] at h
    have h' := congrArg List.reverse h
    simp only [List.reverse_reverse] at h'
    have hde := map_digitChar_inj _ _ (decDigitsAux_lt_ten a a) (decDigitsAux_lt_ten b b) h'
    have ha' := ofDecDigits_decDigits a
    rw [show decDigits a = decDigits b from hde, ofDecDigits_decDigits b] at ha'
    omega

/-- The generated TSK id strings are injective in the counter value. -/
lemma tskId_inj (a b : Nat)
    (h : String.mk (chars "TSK_" ++ natChars a) = String.mk (chars "TSK_" ++ natChars b)) :
    a = b :=
  natChars_inj a b (List.append_cancel_left (congrArg String.data h))

/-- addTask on a found column advances the counter by one. -/
lemma addTask_nextId_found (b : KanbanBoard) (cid : String) (d : TaskData) (i : Nat)
    (h : findColumnIdx b cid = some i) : (addTask b cid d).nextId = b.nextId + 1 := by
  simp [addTask, h]

/-- Core induction for the counter-monotonicity claim: over a request list
whose column ids all exist, the counter advances by one per request and the
created ids are the successive TSK counter values. -/
lemma addTaskAll_spec : ∀ (reqs : List (String × TaskData)) (b : KanbanBoard),
    (∀ r ∈ reqs, (findColumnIdx b r.1).isSome) →
    (addTaskAll b reqs).1.nextId = b.nextId + reqs.length ∧
    (addTaskAll b reqs).2 =
      (List.range reqs.length).map
        (fun m => String.mk (chars "TSK_" ++ natChars (b.nextId + m))) := by
  intro reqs
  induction reqs with
  | nil => intro b _; simp [addTaskAll]
  | cons r reqs ih =>
    intro b h
    obtain ⟨i, hi⟩ := Option.isSome_iff_exists.mp (h r (by simp))
    have hnext := addTask_nextId_found b r.1 r.2 i hi
    have htail := ih (addTask b r.1 r.2)
      (fun q hq => by
        rw [findColumnIdx_addTask]
        exact h q (List.mem_cons_of_mem _ hq))
    constructor
    · simp only [addTaskAll]
      rw [htail.1, hnext]
      simp [List.length_cons]
      omega
    · simp only [addTaskAll]
      rw [htail.2, hi, hnext]
      simp only [List.length_cons]
      rw [List.range_succ_eq_map]
      simp only [List.map_cons, List.map_map, List.singleton_append]
      have hhead : newTaskId b = ({ data := chars "TSK_" ++ natChars (b.nextId + 0) } : String) := by
        simp [newTaskId]
      rw [hhead]
      congr 1
      apply List.map_congr_left
      intro m hm
      have hone : b.nextId + 1 + m = b.nextId + (m + 1) := by omega
      simp [Function.comp, hone]

/-- C6: starting from counter value k, a sequence of n task-creation
mutations whose target columns exist yields counter k plus n, the created
ids are TSK underscore k, k plus one and so on, and they are pairwise
distinct; the instrumented run is the plain iteration of addTask. -/
theorem c6_counter_monotonicity (b : KanbanBoard) (reqs : List (String × TaskData))
    (h : ∀ r ∈ reqs, (findColumnIdx b r.1).isSome) :
    (addTaskAll b reqs).1 = reqs.foldl (fun bb r => addTask bb r.1 r.2) b ∧
    (addTaskAll b reqs).1.nextId = b.nextId + reqs.length ∧
    (addTaskAll b reqs).2 =
      (List.range reqs.length).map
        (fun m => String.mk (chars "TSK_" ++ natChars (b.nextId + m))) ∧
    (addTaskAll b reqs).2.Nodup := by
  have hs := addTaskAll_spec reqs b h
  refine ⟨addTaskAll_fst reqs b, hs.1, hs.2, ?_⟩
  rw [hs.2]
  apply List.Nodup.map
  · intro m1 m2 hmm
    have := tskId_inj (b.nextId + m1) (b.nextId + m2) hmm
    omega
  · exact List.nodup_range _

/-- Witness board and requests for the counter-monotonicity theorem. -/
def c6WBoard : KanbanBoard :=
  { title := "B", columns := [{ id := "c1", title := "A", tasks := [] }], nextId := 5 }

theorem c6_counter_monotonicity_witness :
    (addTaskAll c6WBoard [("c1", default), ("c1", default)]).1.nextId = 5 + 2 ∧
    (addTaskAll c6WBoard [("c1", default), ("c1", default)]).2.Nodup := by
  have h := c6_counter_monotonicity c6WBoard [("c1", default), ("c1", default)]
    (by intro r hr; fin_cases hr <;> decide)
  exact ⟨h.2.1, h.2.2.2⟩

/- ===== Claim C4: task-id uniqueness ===== -/

/-- All task ids of a board, in column-major order. -/
def colIds (c : KanbanColumn) : List String := c.tasks.map KanbanTask.id

/-- All task ids of a board, in column-major order. -/
def boardTaskIds (b : KanbanBoard) : List String := (b.columns.map colIds).flatten

/-- C4 fails for the parser: a document reusing the explicit id TSK_1 in
two task headers parses to a board with duplicate task ids. -/
theorem c4_parse_can_duplicate_ids :
    ¬ (boardTaskIds (parseMarkdown "## A\n### TSK_1 x\n### TSK_1 y")).Nodup := by
  decide

/-- Replacing the entry at a position by another entry that flattens to
nothing gives the same flattened list, whatever that entry is. -/
lemma flatten_map_set_congr_empty {α β : Type} (f : α → List β) :
    ∀ (l : List α) (i : Nat) (c0 c1 : α), f c0 = [] → f c1 = [] →
      ((l.set i c0).map f).flatten = ((l.set i c1).map f).flatten := by
  intro l
  induction l with
  | nil => intro i c0 c1 h0 h1; simp
  | cons a as ih =>
    intro i c0 c1 h0 h1
    cases i with
    | zero => simp [h0, h1]
    | succ i =>
      simp only [List.set_cons_succ, List.map_cons, List.flatten_cons]
      rw [ih i c0 c1 h0 h1]

/-- Flattening after a set at a live position extracts that entry's
contribution, modulo permutation, with an empty placeholder left behind. -/
lemma flatten_map_set_extract {α β : Type} (f : α → List β) (c0 : α) (h0 : f c0 = []) :
    ∀ (l : List α) (i : Nat) (c' : α), i < l.length →
      (((l.set i c').map f).flatten).Perm (f c' ++ ((l.set i c0).map f).flatten) := by
  intro l
  induction l with
  | nil => intro i c' h; simp at h
  | cons a as ih =>
    intro i c' h
    cases i with
    | zero => simp [h0]
    | succ i =>
      simp only [List.set_cons_succ, List.map_cons, List.flatten_cons]
      have hperm := (ih i c' (by simpa using h)).append_left (f a)
      refine hperm.trans ?_
      exact List.perm_append_comm_assoc (f a) (f c') _

/-- Flattening is stable under a set whose entry flattens to a permutation
of the old entry. -/
lemma flatten_map_set_perm {α β : Type} (f : α → List β) :
    ∀ (l : List α) (i : Nat) (c' : α), i < l.length →
      ((f c').Perm (f (l.getD i c'))) →
      (((l.set i c').map f).flatten).Perm ((l.map f).flatten) := by
  intro l
  induction l with
  | nil => intro i c' h; simp at h
  | cons a as ih =>
    intro i c' h hp
    cases i with
    | zero => exact hp.append_right _
    | succ i =>
      simp only [List.set_cons_succ, List.map_cons, List.flatten_cons, List.getD_cons_succ] at *
      exact (ih i c' (by simpa using h) hp).append_left (f a)

/-- Flattening is monotone under a set whose entry flattens to a sublist of
the old entry. -/
lemma flatten_map_set_sublist {α β : Type} (f : α → List β) :
    ∀ (l : List α) (i : Nat) (c' : α), i < l.length →
      List.Sublist (f c') (f (l.getD i c')) →
      List.Sublist (((l.set i c').map f).flatten) ((l.map f).flatten) := by
  intro l
  induction l with
  | nil => intro i c' h; simp at h
  | cons a as ih =>
    intro i c' h hs
    cases i with
    | zero => exact List.Sublist.append hs (List.Sublist.refl _)
    | succ i =>
      simp only [List.set_cons_succ, List.map_cons, List.flatten_cons, List.getD_cons_succ] at *
      exact List.Sublist.append (List.Sublist.refl _) (ih i c' (by simpa using h) hs)

/-- Flattening is unchanged by a set whose entry flattens identically. -/
lemma flatten_map_set_eq {α β : Type} (f : α → List β) :
    ∀ (l : List α) (i : Nat) (c' : α), i < l.length →
      f c' = f (l.getD i c') →
      ((l.set i c').map f).flatten = ((l.map f)).flatten := by
  intro l
  induction l with
  | nil => intro i c' h; simp at h
  | cons a as ih =>
    intro i c' h he
    cases i with
    | zero => simp_all
    | succ i =>
      simp only [List.set_cons_succ, List.map_cons, List.flatten_cons, List.getD_cons_succ] at *
      rw [ih i c' (by simpa using h) he]

/-- A list is the extraction of its element at a live position. -/
lemma getD_cons_eraseIdx_perm {α : Type} :
    ∀ (l : List α) (k : Nat) (d : α), k < l.length →
      l.Perm (l.getD k d :: l.eraseIdx k) := by
  intro l
  induction l with
  | nil => intro k d h; simp at h
  | cons a as ih =>
    intro k d h
    cases k with
    | zero => simp
    | succ k =>
      simp only [List.getD_cons_succ, List.eraseIdx_cons_succ]
      have := (ih k d (by simpa using h)).cons a
      exact this.trans (List.Perm.swap _ _ _)

/-- splice insertion is a permutation of consing. -/
lemma jsSpliceInsert_perm {α : Type} (l : List α) (idx : Int) (x : α) :
    (jsSpliceInsert l idx x).Perm (x :: l) := by
  unfold jsSpliceInsert
  have : l = l.take (spliceStart l.length idx) ++ l.drop (spliceStart l.length idx) :=
    (List.take_append_drop _ l).symm
  calc l.take (spliceStart l.length idx) ++ x :: l.drop (spliceStart l.length idx)
      |>.Perm (x :: (l.take (spliceStart l.length idx) ++ l.drop (spliceStart l.length idx))) :=
        List.perm_middle
    _ = x :: l := by rw [List.take_append_drop]

/-- Erasing commutes with mapping. -/
lemma map_eraseIdx {α β : Type} (f : α → β) :
    ∀ (l : List α) (k : Nat), (l.eraseIdx k).map f = (l.map f).eraseIdx k := by
  intro l
  induction l with
  | nil => intro k; simp
  | cons a as ih =>
    intro k
    cases k with
    | zero => simp
    | succ k => simp [ih k]

/-- getD commutes with mapping. -/
lemma getD_map {α β : Type} (f : α → β) (l : List α) (i : Nat) (d : α) :
    (l.map f).getD i (f d) = f (l.getD i d) := by
  simp [List.getD_eq_getElem?_getD, List.getElem?_map]

/-- A live getD does not depend on the default. -/
lemma getD_default_irrel {α : Type} (l : List α) (i : Nat) (d1 d2 : α)
    (h : i < l.length) : l.getD i d1 = l.getD i d2 := by
  simp [List.getD_eq_getElem?_getD, List.getElem?_eq_getElem h]

/-- A live getD ignores a set at a different position. -/
lemma getD_set_ne {α : Type} (l : List α) (i j : Nat) (x d : α) (h : i ≠ j) :
    (l.set j x).getD i d = l.getD i d := by
  simp [List.getD_eq_getElem?_getD, List.getElem?_set_ne (by omega : j ≠ i)]

/-- A column with no tasks contributes no ids. -/
def blankColumn : KanbanColumn := { id := "", title := "", tasks := [] }

/-- Replacing a task by one with the same id keeps the column ids. -/
lemma colIds_set_same_id (col : KanbanColumn) (k : Nat) (t' : KanbanTask)
    (hk : k < col.tasks.length) (hid : t'.id = (col.tasks.getD k default).id) :
    colIds { col with tasks := col.tasks.set k t' } = colIds col := by
  unfold colIds
  rw [List.map_set, hid,
    show (col.tasks.getD k default).id =
      (col.tasks.map KanbanTask.id).getD k ((default : KanbanTask).id) from
      (getD_map _ _ _ _).symm]
  exact set_getD_self _ _ _ (by simpa using hk)

/-- Replacing one column by one with the same task ids keeps the board
ids. -/
lemma boardIds_set_col (b : KanbanBoard) (i : Nat) (col' : KanbanColumn)
    (hi : i < b.columns.length)
    (hcl : colIds col' = colIds (b.columns.getD i default)) :
    boardTaskIds { b with columns := b.columns.set i col' } = boardTaskIds b := by
  unfold boardTaskIds
  apply flatten_map_set_eq _ _ _ _ hi
  rw [getD_default_irrel b.columns i col' default hi]
  exact hcl

/-- editTask changes no task id. -/
lemma editTask_ids (b : KanbanBoard) (tid cid : String) (d : TaskData) :
    boardTaskIds (editTask b tid cid d) = boardTaskIds b := by
  unfold editTask
  cases hc : findColumnIdx b cid with
  | none => rfl
  | some i =>
    cases ht : findTaskIdx (b.columns.getD i default) tid with
    | none => simp only [ht]
    | some k =>
      simp only [ht]
      refine boardIds_set_col b i _ (findIdx?_bound hc) ?_
      exact colIds_set_same_id _ _ _ (findIdx?_bound ht) rfl

/-- updateTaskStep changes no task id. -/
lemma updateTaskStep_ids (b : KanbanBoard) (tid cid : String) (idx : Int) (comp : Bool) :
    boardTaskIds (updateTaskStep b tid cid idx comp) = boardTaskIds b := by
  unfold updateTaskStep
  cases hc : findColumnIdx b cid with
  | none => rfl
  | some i =>
    cases ht : findTaskIdx (b.columns.getD i default) tid with
    | none => simp only [ht]
    | some k =>
      cases hs : ((b.columns.getD i default).tasks.getD k default).steps with
      | none => simp only [ht, hs]
      | some l =>
        simp only [ht, hs]
        split
        · rfl
        · refine boardIds_set_col b i _ (findIdx?_bound hc) ?_
          exact colIds_set_same_id _ _ _ (findIdx?_bound ht) rfl

/-- updateChecklistItem changes no task id. -/
lemma updateChecklistItem_ids (b : KanbanBoard) (tid cid : String) (key : ChecklistKey)
    (idx : Int) (comp : Bool) :
    boardTaskIds (updateChecklistItem b tid cid key idx comp) = boardTaskIds b := by
  unfold updateChecklistItem
  cases hc : findColumnIdx b cid with
  | none => rfl
  | some i =>
    cases ht : findTaskIdx (b.columns.getD i default) tid with
    | none => simp only [ht]
    | some k =>
      cases hs : getList ((b.columns.getD i default).tasks.getD k default) key with
      | none => simp only [ht, hs]
      | some l =>
        simp only [ht, hs]
        split
        · rfl
        · refine boardIds_set_col b i _ (findIdx?_bound hc) ?_
          refine colIds_set_same_id _ _ _ (findIdx?_bound ht) ?_
          cases key <;> rfl

/-- reorderTaskSteps changes no task id. -/
lemma reorderTaskSteps_ids (b : KanbanBoard) (tid cid : String) (ord : List Int) :
    boardTaskIds (reorderTaskSteps b tid cid ord) = boardTaskIds b := by
  unfold reorderTaskSteps
  cases hc : findColumnIdx b cid with
  | none => rfl
  | some i =>
    cases ht : findTaskIdx (b.columns.getD i default) tid with
    | none => simp only [ht]
    | some k =>
      cases hs : ((b.columns.getD i default).tasks.getD k default).steps with
      | none => simp only [ht, hs]
      | some l =>
        simp only [ht, hs]
        refine boardIds_set_col b i _ (findIdx?_bound hc) ?_
        exact colIds_set_same_id _ _ _ (findIdx?_bound ht) rfl

/-- toggleColumnArchive changes no task id. -/
lemma toggleColumnArchive_ids (b : KanbanBoard) (cid : String) (arch : Bool) :
    boardTaskIds (toggleColumnArchive b cid arch) = boardTaskIds b := by
  unfold toggleColumnArchive
  cases hc : findColumnIdx b cid with
  | none => rfl
  | some i =>
    refine boardIds_set_col b i _ (findIdx?_bound hc) ?_
    rfl

/-- addColumn adds no task id. -/
lemma addColumn_ids (b : KanbanBoard) (nid ttl : String) :
    boardTaskIds (addColumn b nid ttl) = boardTaskIds b := by
  simp [addColumn, boardTaskIds, colIds]

/-- Replacing one column by one whose task ids form a sublist shrinks the
board ids to a sublist. -/
lemma boardIds_set_col_sublist (b : KanbanBoard) (i : Nat) (col' : KanbanColumn)
    (hi : i < b.columns.length)
    (hcl : List.Sublist (colIds col') (colIds (b.columns.getD i default))) :
    List.Sublist (boardTaskIds { b with columns := b.columns.set i col' })
      (boardTaskIds b) := by
  unfold boardTaskIds
  apply flatten_map_set_sublist _ _ _ _ hi
  rw [getD_default_irrel b.columns i col' default hi]
  exact hcl

/-- deleteTask only removes ids. -/
lemma deleteTask_ids_sublist (b : KanbanBoard) (tid cid : String) :
    List.Sublist (boardTaskIds (deleteTask b tid cid)) (boardTaskIds b) := by
  unfold deleteTask
  cases hc : findColumnIdx b cid with
  | none => exact List.Sublist.refl _
  | some i =>
    cases ht : findTaskIdx (b.columns.getD i default) tid with
    | none => simp only [ht]; exact List.Sublist.refl _
    | some k =>
      simp only [ht]
      refine boardIds_set_col_sublist b i _ (findIdx?_bound hc) ?_
      show List.Sublist (((b.columns.getD i default).tasks.eraseIdx k).map KanbanTask.id)
        ((b.columns.getD i default).tasks.map KanbanTask.id)
      rw [map_eraseIdx]
      exact List.eraseIdx_sublist _ k

/-- Replacing one column by one with permuted task ids permutes the board
ids. -/
lemma boardIds_set_col_perm (b : KanbanBoard) (i : Nat) (col' : KanbanColumn)
    (hi : i < b.columns.length)
    (hcl : (colIds col').Perm (colIds (b.columns.getD i default))) :
    (boardTaskIds { b with columns := b.columns.set i col' }).Perm (boardTaskIds b) := by
  unfold boardTaskIds
  apply flatten_map_set_perm _ _ _ _ hi
  rw [getD_default_irrel b.columns i col' default hi]
  exact hcl

/-- moveTask permutes the task ids of the board. -/
lemma moveTask_ids_perm (b : KanbanBoard) (tid cid cid2 : String) (idx : Int) :
    (boardTaskIds (moveTask b tid cid cid2 idx)).Perm (boardTaskIds b) := by
  unfold moveTask
  cases hc1 : findColumnIdx b cid with
  | none => exact List.Perm.refl _
  | some i =>
    cases hc2 : findColumnIdx b cid2 with
    | none => exact List.Perm.refl _
    | some j =>
      cases ht : findTaskIdx (b.columns.getD i default) tid with
      | none => simp only [ht]; exact List.Perm.refl _
      | some k =>
        simp only [ht]
        have hi := findIdx?_bound hc1
        have hj := findIdx?_bound hc2
        have hk := findIdx?_bound ht
        by_cases hij : i = j
        · subst hij
          rw [if_pos rfl]
          refine boardIds_set_col_perm b i _ hi ?_
          show ((jsSpliceInsert ((b.columns.getD i default).tasks.eraseIdx k) idx
            ((b.columns.getD i default).tasks.getD k default)).map KanbanTask.id).Perm _
          refine ((jsSpliceInsert_perm _ _ _).map KanbanTask.id).trans ?_
          show (KanbanTask.id ((b.columns.getD i default).tasks.getD k default) ::
            ((b.columns.getD i default).tasks.eraseIdx k).map KanbanTask.id).Perm _
          rw [map_eraseIdx]
          have hpm := getD_cons_eraseIdx_perm
            ((b.columns.getD i default).tasks.map KanbanTask.id) k
            (KanbanTask.id default) (by simpa using hk)
          rw [getD_map] at hpm
          exact hpm.symm
        · rw [if_neg hij]
          set cols := b.columns with hcols
          set fc := cols.getD i default with hfc0
          set tc := cols.getD j default with htc0
          set task := fc.tasks.getD k default with htask0
          set ca := { fc with tasks := fc.tasks.eraseIdx k } with hca
          set cb := { tc with tasks := jsSpliceInsert tc.tasks idx task } with hcb
          have e1 : ((((cols.set i ca).set j cb).map colIds).flatten).Perm
              (colIds cb ++ (((cols.set i ca).set j blankColumn).map colIds).flatten) :=
            flatten_map_set_extract colIds blankColumn rfl _ j cb (by simpa using hj)
          have e2 : (cols.set i ca).set j blankColumn = (cols.set j blankColumn).set i ca :=
            List.set_comm ca blankColumn cols hij
          have e3 : ((((cols.set j blankColumn).set i ca).map colIds).flatten).Perm
              (colIds ca ++ (((cols.set j blankColumn).set i blankColumn).map colIds).flatten) :=
            flatten_map_set_extract colIds blankColumn rfl _ i ca (by simpa using hi)
          have f2 : (((cols.map colIds).flatten)).Perm
              (colIds tc ++ ((cols.set j blankColumn).map colIds).flatten) := by
            conv_lhs => rw [← set_getD_self cols j default hj]
            exact flatten_map_set_extract colIds blankColumn rfl _ j _ (by simpa using hj)
          have hgdi : (cols.set j blankColumn).getD i default = fc :=
            getD_set_ne cols i j blankColumn default hij
          have f4 : (((cols.set j blankColumn).map colIds).flatten).Perm
              (colIds fc ++ (((cols.set j blankColumn).set i blankColumn).map colIds).flatten) := by
            have h5 := flatten_map_set_extract colIds blankColumn rfl (cols.set j blankColumn) i
              ((cols.set j blankColumn).getD i default) (by simpa using hi)
            rw [set_getD_self _ i default (by simpa using hi), hgdi] at h5
            exact h5
          have hbc : (colIds cb).Perm (task.id :: colIds tc) := by
            show ((jsSpliceInsert tc.tasks idx task).map KanbanTask.id).Perm _
            exact (jsSpliceInsert_perm _ _ _).map _
          have ha : colIds ca = (colIds fc).eraseIdx k := map_eraseIdx _ _ _
          have hfcp : (colIds fc).Perm (task.id :: (colIds fc).eraseIdx k) := by
            have hpm := getD_cons_eraseIdx_perm (fc.tasks.map KanbanTask.id) k
              (KanbanTask.id default) (by simpa using hk)
            rw [getD_map] at hpm
            exact hpm
          have main : (colIds cb ++
              (colIds ca ++ (((cols.set j blankColumn).set i blankColumn).map colIds).flatten)).Perm
              (colIds tc ++
                (colIds fc ++ (((cols.set j blankColumn).set i blankColumn).map colIds).flatten)) := by
            rw [ha]
            have left1 := hbc.append_right
              ((colIds fc).eraseIdx k ++ (((cols.set j blankColumn).set i blankColumn).map colIds).flatten)
            have right1 := (hfcp.append_right
              (((cols.set j blankColumn).set i blankColumn).map colIds).flatten).append_left (colIds tc)
            have right2 : (colIds tc ++ ((task.id :: (colIds fc).eraseIdx k) ++
                (((cols.set j blankColumn).set i blankColumn).map colIds).flatten)).Perm
                (task.id :: (colIds tc ++ ((colIds fc).eraseIdx k ++
                  (((cols.set j blankColumn).set i blankColumn).map colIds).flatten))) := by
              show ((colIds tc ++ task.id :: ((colIds fc).eraseIdx k ++
                (((cols.set j blankColumn).set i blankColumn).map colIds).flatten))).Perm _
              exact List.perm_middle
            exact left1.trans (right1.trans right2).symm
          have step1 := e1
          rw [e2] at step1
          have step2 := step1.trans (e3.append_left (colIds cb))
          have step3 := step2.trans main
          have step4 := f2.trans (f4.append_left (colIds tc))
          exact step3.trans step4.symm

/-- moveColumn with an in-range source index permutes the task ids. -/
lemma moveColumn_ids_perm (b : KanbanBoard) (fromIdx toIdx : Int)
    (h0 : 0 ≤ fromIdx) (h1 : fromIdx < (b.columns.length : Int)) :
    (boardTaskIds (moveColumn b fromIdx toIdx)).Perm (boardTaskIds b) := by
  unfold moveColumn
  by_cases he : fromIdx = toIdx
  · rw [if_pos he]
  · rw [if_neg he]
    have ha : spliceStart b.columns.length fromIdx = fromIdx.toNat := by
      unfold spliceStart
      rw [if_neg (by omega)]
      omega
    have hlt : fromIdx.toNat < b.columns.length := by omega
    have hrem : (jsSpliceRemoveOne b.columns fromIdx).1 =
        some (b.columns.getD fromIdx.toNat default) := by
      show b.columns.get? (spliceStart b.columns.length fromIdx) = _
      rw [ha, List.get?_eq_getElem?, List.getElem?_eq_getElem hlt]
      simp [List.getD_eq_getElem?_getD, List.getElem?_eq_getElem hlt]
    simp only [hrem]
    have hcolsPerm : (jsSpliceInsert (jsSpliceRemoveOne b.columns fromIdx).2 toIdx
        (b.columns.getD fromIdx.toNat default)).Perm b.columns := by
      refine (jsSpliceInsert_perm _ _ _).trans ?_
      show ((b.columns.getD fromIdx.toNat default) ::
        b.columns.eraseIdx (spliceStart b.columns.length fromIdx)).Perm b.columns
      rw [ha]
      exact (getD_cons_eraseIdx_perm b.columns fromIdx.toNat default hlt).symm
    exact ((hcolsPerm.map colIds).flatten)

/-- addTask either leaves the ids unchanged (column not found) or adds
exactly the new counter id. -/
lemma addTask_ids_cases (b : KanbanBoard) (cid : String) (d : TaskData) :
    boardTaskIds (addTask b cid d) = boardTaskIds b ∨
    (boardTaskIds (addTask b cid d)).Perm (newTaskId b :: boardTaskIds b) := by
  unfold addTask
  cases hc : findColumnIdx b cid with
  | none => left; rfl
  | some i =>
    right
    have hi := findIdx?_bound hc
    have e1 : ((((b.columns.set i { b.columns.getD i default with
        tasks := (b.columns.getD i default).tasks ++ [buildTask (newTaskId b) d] })).map
        colIds).flatten).Perm
        (colIds { b.columns.getD i default with
          tasks := (b.columns.getD i default).tasks ++ [buildTask (newTaskId b) d] } ++
          ((b.columns.set i blankColumn).map colIds).flatten) :=
      flatten_map_set_extract colIds blankColumn rfl _ i _ hi
    have hsplit : colIds { b.columns.getD i default with
        tasks := (b.columns.getD i default).tasks ++ [buildTask (newTaskId b) d] } =
        colIds (b.columns.getD i default) ++ [newTaskId b] := by
      show ((b.columns.getD i default).tasks ++ [buildTask (newTaskId b) d]).map
        KanbanTask.id = _
      rw [List.map_append]
      rfl
    have f2 : ((b.columns.map colIds).flatten).Perm
        (colIds (b.columns.getD i default) ++
          ((b.columns.set i blankColumn).map colIds).flatten) := by
      conv_lhs => rw [← set_getD_self b.columns i default hi]
      exact flatten_map_set_extract colIds blankColumn rfl _ i _ hi
    have emid : (colIds (b.columns.getD i default) ++ [newTaskId b] ++
        ((b.columns.set i blankColumn).map colIds).flatten).Perm
        (newTaskId b :: (colIds (b.columns.getD i default) ++
          ((b.columns.set i blankColumn).map colIds).flatten)) := by
      rw [List.append_assoc]
      show ((colIds (b.columns.getD i default) ++ newTaskId b ::
        ((b.columns.set i blankColumn).map colIds).flatten)).Perm _
      exact List.perm_middle
    have step1 := e1
    rw [hsplit] at step1
    exact (step1.trans emid).trans (f2.symm.cons (newTaskId b))

/-- C4 as amended: the parser does not enforce id uniqueness (see the
counterexample), but every mutation preserves pairwise-distinct task ids:
unconditionally for moveTask, deleteTask, editTask, the checklist updates,
the reorder, addColumn and toggleColumnArchive; task creation needs the
next counter id to be fresh and moveColumn an in-range source index. -/
theorem c4_amended_mutations_preserve_unique_ids :
    (∀ (b : KanbanBoard) (tid cid cid2 : String) (idx : Int),
      (boardTaskIds b).Nodup → (boardTaskIds (moveTask b tid cid cid2 idx)).Nodup) ∧
    (∀ (b : KanbanBoard) (cid : String) (d : TaskData),
      (boardTaskIds b).Nodup → newTaskId b ∉ boardTaskIds b →
      (boardTaskIds (addTask b cid d)).Nodup) ∧
    (∀ (b : KanbanBoard) (tid cid : String),
      (boardTaskIds b).Nodup → (boardTaskIds (deleteTask b tid cid)).Nodup) ∧
    (∀ (b : KanbanBoard) (tid cid : String) (d : TaskData),
      (boardTaskIds b).Nodup → (boardTaskIds (editTask b tid cid d)).Nodup) ∧
    (∀ (b : KanbanBoard) (tid cid : String) (idx : Int) (comp : Bool),
      (boardTaskIds b).Nodup → (boardTaskIds (updateTaskStep b tid cid idx comp)).Nodup) ∧
    (∀ (b : KanbanBoard) (tid cid : String) (key : ChecklistKey) (idx : Int) (comp : Bool),
      (boardTaskIds b).Nodup →
      (boardTaskIds (updateChecklistItem b tid cid key idx comp)).Nodup) ∧
    (∀ (b : KanbanBoard) (tid cid : String) (ord : List Int),
      (boardTaskIds b).Nodup → (boardTaskIds (reorderTaskSteps b tid cid ord)).Nodup) ∧
    (∀ (b : KanbanBoard) (colNewId colTitle : String),
      (boardTaskIds b).Nodup → (boardTaskIds (addColumn b colNewId colTitle)).Nodup) ∧
    (∀ (b : KanbanBoard) (fromIdx toIdx : Int),
      (boardTaskIds b).Nodup → 0 ≤ fromIdx → fromIdx < (b.columns.length : Int) →
      (boardTaskIds (moveColumn b fromIdx toIdx)).Nodup) ∧
    (∀ (b : KanbanBoard) (cid : String) (arch : Bool),
      (boardTaskIds b).Nodup → (boardTaskIds (toggleColumnArchive b cid arch)).Nodup) := by
  refine ⟨?_, ?_, ?_, ?_, ?_, ?_, ?_, ?_, ?_, ?_⟩
  · intro b tid cid cid2 idx hnd
    exact (moveTask_ids_perm b tid cid cid2 idx).nodup_iff.mpr hnd
  · intro b cid d hnd hfresh
    rcases addTask_ids_cases b cid d with h | h
    · rw [h]; exact hnd
    · exact h.nodup_iff.mpr (List.nodup_cons.mpr ⟨hfresh, hnd⟩)
  · intro b tid cid hnd
    exact hnd.sublist (deleteTask_ids_sublist b tid cid)
  · intro b tid cid d hnd
    rw [editTask_ids]; exact hnd
  · intro b tid cid idx comp hnd
    rw [updateTaskStep_ids]; exact hnd
  · intro b tid cid key idx comp hnd
    rw [updateChecklistItem_ids]; exact hnd
  · intro b tid cid ord hnd
    rw [reorderTaskSteps_ids]; exact hnd
  · intro b colNewId colTitle hnd
    rw [addColumn_ids]; exact hnd
  · intro b fromIdx toIdx hnd h0 h1
    exact (moveColumn_ids_perm b fromIdx toIdx h0 h1).nodup_iff.mpr hnd
  · intro b cid arch hnd
    rw [toggleColumnArchive_ids]; exact hnd

/-- Witness board for the amended uniqueness theorem. -/
def c4WBoard : KanbanBoard :=
  { title := "B",
    columns := [{ id := "c1", title := "A",
                  tasks := [{ id := "TSK_1", title := "t" }] }],
    nextId := 2 }

theorem c4_amended_mutations_preserve_unique_ids_witness :
    (boardTaskIds (moveTask c4WBoard "TSK_1" "c1" "c1" 0)).Nodup ∧
    (boardTaskIds (addTask c4WBoard "c1" default)).Nodup ∧
    (boardTaskIds (deleteTask c4WBoard "TSK_1" "c1")).Nodup ∧
    (boardTaskIds (editTask c4WBoard "TSK_1" "c1" default)).Nodup ∧
    (boardTaskIds (updateTaskStep c4WBoard "TSK_1" "c1" 0 true)).Nodup ∧
    (boardTaskIds (updateChecklistItem c4WBoard "TSK_1" "c1" .steps 0 true)).Nodup ∧
    (boardTaskIds (reorderTaskSteps c4WBoard "TSK_1" "c1" [])).Nodup ∧
    (boardTaskIds (addColumn c4WBoard "x" "y")).Nodup ∧
    (boardTaskIds (moveColumn c4WBoard 0 1)).Nodup ∧
    (boardTaskIds (toggleColumnArchive c4WBoard "c1" true)).Nodup := by
  obtain ⟨h1, h2, h3, h4, h5, h6, h7, h8, h9, h10⟩ :=
    c4_amended_mutations_preserve_unique_ids
  exact ⟨h1 c4WBoard "TSK_1" "c1" "c1" 0 (by decide),
    h2 c4WBoard "c1" default (by decide) (by decide),
    h3 c4WBoard "TSK_1" "c1" (by decide),
    h4 c4WBoard "TSK_1" "c1" default (by decide),
    h5 c4WBoard "TSK_1" "c1" 0 true (by decide),
    h6 c4WBoard "TSK_1" "c1" .steps 0 true (by decide),
    h7 c4WBoard "TSK_1" "c1" [] (by decide),
    h8 c4WBoard "x" "y" (by decide),
    h9 c4WBoard 0 1 (by decide) (by decide) (by decide),
    h10 c4WBoard "c1" true (by decide)⟩

/- ===== Claim C9: the header style only changes the task header line ===== -/

/-- The text both header styles share: the canonical id prefix and the task
title. -/
def taskHeadChars (task : KanbanTask) : List Char :=
  (if task.id ≠ "" && isCanonicalIdStr task.id then task.id.data ++ [' '] else []) ++
    task.title.data

/-- Everything a task chunk emits after its header line. -/
def taskBodyChars (task : KanbanTask) : List Char :=
  let metaParts : List (List Char) :=
    (match task.tags with
     | some tags => if 0 < tags.length then [joinSep (chars ", ") (tags.map String.data)] else []
     | none => []) ++
    (match task.priority with
     | some p => [priorityChars p]
     | none => [])
  let metaLine := if metaParts ≠ [] then chars "> " ++ joinSep (chars " | ") metaParts ++ ['\n']
    else []
  let descPart := match task.description with
    | some d => if d ≠ "" && jsTrim d.data ≠ [] then '\n' :: jsTrim d.data ++ ['\n'] else []
    | none => []
  let duePart := match task.dueDate with
    | some d => if d ≠ "" then chars "\n**Due:** " ++ d.data ++ ['\n'] else []
    | none => []
  let workloadPart := match task.workload with
    | some w => chars "\n**Workload:** " ++ workloadChars w ++ ['\n']
    | none => []
  let filesPart := match task.files with
    | some f => if f ≠ "" then chars "\n**Files:** " ++ f.data ++ ['\n'] else []
    | none => []
  metaLine ++ descPart ++ duePart ++ workloadPart ++
    checklistPart (chars "**Steps:**") task.steps ++
    checklistPart (chars "**AC:**") task.ac ++
    checklistPart (chars "**Verify:**") task.verify ++
    filesPart ++ ['\n']

/-- The serializer with the task header line abstracted out. -/
def taskChunkWith (hdr : KanbanTask → List Char) (task : KanbanTask) : List Char :=
  hdr task ++ taskBodyChars task

/-- The per-column chunk with the task header line abstracted out. -/
def columnChunkWith (hdr : KanbanTask → List Char) (c : KanbanColumn) : List Char :=
  let ctitle := match c.archived with
    | some b => if b then c.title.data ++ chars " [Archived]" else c.title.data
    | none => c.title.data
  chars "## " ++ ctitle ++ chars "\n\n" ++ (c.tasks.map (taskChunkWith hdr)).flatten

/-- The whole serializer with the task header line abstracted out. -/
def genWithHeader (hdr : KanbanTask → List Char) (b : KanbanBoard) : List Char :=
  chars "<!-- next-id: " ++ natChars b.nextId ++ chars " -->\n" ++
    (if b.title ≠ "" then chars "# " ++ b.title.data ++ chars "\n\n" else []) ++
    (b.columns.map (columnChunkWith hdr)).flatten

/-- A task chunk is its style-dependent header line followed by the
style-independent body. -/
lemma taskChunk_split (fmt : TaskHeaderFormat) (task : KanbanTask) :
    taskChunk fmt task =
      (if fmt = .title then chars "### " ++ taskHeadChars task ++ ['\n']
       else chars "- " ++ taskHeadChars task ++ ['\n']) ++ taskBodyChars task := by
  cases fmt <;> simp [taskChunk, taskHeadChars, taskBodyChars, List.append_assoc]

/-- C9: the two header styles produce the same serializer output except
for each task header line, rendered as a triple-hash line in the title
style and as a dash line in the list style; every other emitted character
is the shared function genWithHeader of the board alone. -/
theorem c9_header_style_only_changes_task_header (b : KanbanBoard) :
    generateMarkdown b .title =
      String.mk (genWithHeader (fun t => chars "### " ++ taskHeadChars t ++ ['\n']) b) ∧
    generateMarkdown b .list =
      String.mk (genWithHeader (fun t => chars "- " ++ taskHeadChars t ++ ['\n']) b) := by
  have hcol : ∀ (fmt : TaskHeaderFormat) (hdr : KanbanTask → List Char),
      (∀ t, taskChunk fmt t = taskChunkWith hdr t) →
      ∀ c, columnChunk fmt c = columnChunkWith hdr c := by
    intro fmt hdr ht c
    simp only [columnChunk, columnChunkWith]
    rw [List.map_congr_left (fun t _ => ht t)]
  constructor
  · show String.mk (generateMarkdownChars b .title) = _
    simp only [generateMarkdownChars, genWithHeader]
    rw [List.map_congr_left (fun c _ => hcol .title _
      (fun t => by rw [taskChunk_split, taskChunkWith]) c)]
    simp
  · show String.mk (generateMarkdownChars b .list) = _
    simp only [generateMarkdownChars, genWithHeader]
    rw [List.map_congr_left (fun c _ => hcol .list _
      (fun t => by rw [taskChunk_split, taskChunkWith]) c)]
    simp

/- ===== Claim C8: code-fence immunity ===== -/

/-- A fence marker line: the trimmed line starts with three backticks. -/
def isFenceMarker (l : List Char) : Bool := (chars "```").isPrefixOf (jsTrim l)

/-- C8 fails as a statement about the whole board: a next-id comment lying
strictly between two fence markers still initialises the counter, because
the counter scan inspects the raw text, so the fenced line changes the
parsed board. -/
theorem c8_fenced_next_id_comment_changes_board :
    parseMarkdown "```\n<!-- next-id: 7 -->\n```" ≠ parseMarkdown "```\n```" := by
  decide

/-- While the fence flag is set, any non-marker line leaves the whole
parser state untouched. -/
lemma processLine_inCodeBlock_skips (s : ParseState) (l : List Char)
    (hfl : s.inCodeBlock = true) (hnf : isFenceMarker l = false) : processLine s l = s := by
  unfold isFenceMarker at hnf
  simp only [processLine, outerStep, hfl]
  by_cases hcmt : ((chars "<!--").isPrefixOf (jsTrim l) && (chars "-->").isSuffixOf (jsTrim l)) = true
  · simp [hcmt]
  · simp [hcmt, hnf]

/-- The outer rules other than the fence toggle keep the fence flag. -/
lemma outerStep_flag (s : ParseState) (line t : List Char) (s' : ParseState)
    (h : outerStep s line t = some s') (hnf : (chars "```").isPrefixOf t = false) :
    s'.inCodeBlock = s.inCodeBlock := by
  simp only [outerStep, hnf] at h
  repeat' split at h
  all_goals first
    | exact Option.noConfusion h
    | (exfalso; simp_all; done)
    | (cases h
       cases h1 : s.currentTask <;> cases h2 : s.currentColumn <;>
         simp [finalizeState, h1, h2]
       done)

/-- The task-body rules keep the fence flag for non-marker lines. -/
lemma taskTailStep_flag (s : ParseState) (task : KanbanTask) (line t : List Char)
    (hnf : (chars "```").isPrefixOf t = false) :
    (taskTailStep s task line t).inCodeBlock = s.inCodeBlock := by
  simp only [taskTailStep]
  repeat' split
  all_goals first
    | rfl
    | (rename_i s2 hs2
       rw [outerStep_flag _ _ _ _ hs2 hnf]
       cases h1 : s.currentTask <;> cases h2 : s.currentColumn <;>
         simp [finalizeState, h1, h2])
    | (cases h1 : s.currentTask <;> cases h2 : s.currentColumn <;>
         simp [finalizeState, h1, h2])

/-- The task-body rules keep the fence flag for non-marker lines. -/
lemma taskBodyStep_flag (s : ParseState) (task : KanbanTask) (line t : List Char)
    (hnf : (chars "```").isPrefixOf t = false) :
    (taskBodyStep s task line t).inCodeBlock = s.inCodeBlock := by
  simp only [taskBodyStep]
  repeat' split
  all_goals first | rfl | exact taskTailStep_flag s task line t hnf

/-- Two prefixes of the same list start with the same character. -/
lemma prefix_head_ne {a b : Char} {p q l : List Char} (hp : (a :: p).isPrefixOf l = true)
    (hq : (b :: q).isPrefixOf l = true) : a = b := by
  cases l with
  | nil => simp [List.isPrefixOf] at hp
  | cons c cs =>
    simp [List.isPrefixOf] at hp hq
    rw [hp.1, hq.1]

/-- One loop iteration toggles the fence flag exactly on marker lines. -/
lemma processLine_flag (s : ParseState) (l : List Char) :
    (processLine s l).inCodeBlock =
      if isFenceMarker l then !s.inCodeBlock else s.inCodeBlock := by
  by_cases hf : isFenceMarker l = true
  · unfold isFenceMarker at hf
    have hcmt : (chars "<!--").isPrefixOf (jsTrim l) = false := by
      by_contra hcm
      have hcm' : (chars "<!--").isPrefixOf (jsTrim l) = true := by simpa using hcm
      have hh := prefix_head_ne hf hcm'
      simp at hh
    simp [processLine, outerStep, hcmt, hf, isFenceMarker]
  · have hnf : isFenceMarker l = false := by simpa using hf
    rw [if_neg (by simp [hnf])]
    unfold isFenceMarker at hnf
    simp only [processLine]
    cases ho : outerStep s l (jsTrim l) with
    | some s' => exact outerStep_flag _ _ _ _ ho hnf
    | none =>
      cases hct : s.currentTask with
      | some task =>
        by_cases hitb : s.inTaskBody = true
        · simp [hitb, taskBodyStep_flag _ _ _ _ hnf]
        · simp [hitb]
      | none => rfl

/-- The fence flag after a line list is the initial flag xored with the
parity of the marker count. -/
lemma runLines_flag : ∀ (ls : List (List Char)) (s : ParseState),
    (runLines s ls).inCodeBlock =
      xor (decide ((ls.countP isFenceMarker) % 2 = 1)) s.inCodeBlock := by
  intro ls
  induction ls with
  | nil => intro s; simp [runLines]
  | cons l ls ih =>
    intro s
    rw [show runLines s (l :: ls) = runLines (processLine s l) ls from rfl, ih,
      processLine_flag, List.countP_cons]
    rcases Nat.mod_two_eq_zero_or_one (ls.countP isFenceMarker) with hp | hp <;>
      by_cases hfm : isFenceMarker l = true <;>
        simp [hfm, hp, Nat.add_mod] <;> cases s.inCodeBlock <;> simp

/-- C8 as amended: every line lying strictly between an opening and a
closing fence marker is ignored by the line machine outright: deleting
those lines does not change the parse state at all, hence they create no
column, task, property, tag or checklist item and add no description text.
Only the raw-text counter scan can still see such a line (see the
counterexample). -/
theorem c8_amended_fenced_lines_ignored (s0 : ParseState) (pre mid post : List (List Char))
    (f g : List Char)
    (h0 : s0.inCodeBlock = false)
    (hpre : (pre.countP isFenceMarker) % 2 = 0)
    (hf : isFenceMarker f = true) (hg : isFenceMarker g = true)
    (hmid : ∀ l ∈ mid, isFenceMarker l = false) :
    runLines s0 (pre ++ f :: (mid ++ g :: post)) = runLines s0 (pre ++ f :: (g :: post)) := by
  have h1 : (runLines s0 pre).inCodeBlock = false := by
    rw [runLines_flag]
    have : ¬ ((pre.countP isFenceMarker) % 2 = 1) := by omega
    simp [this, h0]
  have h2 : (processLine (runLines s0 pre) f).inCodeBlock = true := by
    rw [processLine_flag, if_pos hf, h1]
    rfl
  have hskip : ∀ (mid' : List (List Char)) (s : ParseState), s.inCodeBlock = true →
      (∀ l ∈ mid', isFenceMarker l = false) → runLines s mid' = s := by
    intro mid'
    induction mid' with
    | nil => intro s _ _; rfl
    | cons l ls ih =>
      intro s hs hall
      rw [show runLines s (l :: ls) = runLines (processLine s l) ls from rfl,
        processLine_inCodeBlock_skips s l hs (hall l (by simp))]
      exact ih s hs (fun x hx => hall x (by simp [hx]))
  have e1 : runLines s0 (pre ++ f :: (mid ++ g :: post)) =
      runLines (runLines (processLine (runLines s0 pre) f) mid) (g :: post) := by
    show (pre ++ f :: (mid ++ g :: post)).foldl processLine s0 = _
    rw [List.foldl_append]
    show (mid ++ g :: post).foldl processLine _ = _
    rw [List.foldl_append]
    rfl
  have e2 : runLines s0 (pre ++ f :: (g :: post)) =
      runLines (processLine (runLines s0 pre) f) (g :: post) := by
    show (pre ++ f :: (g :: post)).foldl processLine s0 = _
    rw [List.foldl_append]
    rfl
  rw [e1, e2, hskip mid _ h2 hmid]

/-- Witness lines for the amended fence theorem. -/
def c8WLine : List Char := chars "## Col"

theorem c8_amended_fenced_lines_ignored_witness :
    runLines (initState 1)
      [chars "```", c8WLine, chars "```"] =
    runLines (initState 1) [chars "```", chars "```"] := by
  have h := c8_amended_fenced_lines_ignored (initState 1) [] [c8WLine] []
    (chars "```") (chars "```") (by decide) (by decide) (by decide) (by decide)
    (by intro l hl; fin_cases hl; decide)
  simpa using h

/- ===== Claim C10: task header before any column ===== -/

/-- Trimming a line that starts with a non-whitespace character keeps that
character in front. -/
lemma jsTrim_cons_not_ws (a : Char) (l : List Char) (ha : wsChar a = false) :
    jsTrim (a :: l) = a :: rdropWhileP wsChar l := by
  unfold jsTrim rdropWhileP
  rw [List.dropWhile_cons_of_neg (by simp [ha])]
  rw [List.reverse_cons, List.dropWhile_append]
  split
  · rename_i hemp
    simp only [List.isEmpty_iff] at hemp
    rw [List.dropWhile_cons_of_neg (by simp [ha])]
    simp [hemp]
  · simp

/-- C10: a task-header line encountered while no column is open is
consumed silently: the parser state, and hence the board and the rest of
the parse, are completely unchanged, and no task is created for it. -/
theorem c10_task_header_before_column_ignored (s : ParseState) (l : List Char)
    (hcol : s.currentColumn = none) (htask : s.currentTask = none)
    (hcb : s.inCodeBlock = false)
    (htt : isTaskTitle l (jsTrim l) = true) :
    processLine s l = s := by
  have hD : ((chars "- ").isPrefixOf l && !((chars "  ").isPrefixOf l)) = true ∨
      (chars "### ").isPrefixOf (jsTrim l) = true := by
    unfold isTaskTitle at htt
    split at htt
    · exact absurd htt (by simp)
    · split at htt
      · exact absurd htt (by simp)
      · split at htt
        · exact absurd htt (by simp)
        · simpa using htt
  have hF : (chars "<!--").isPrefixOf (jsTrim l) = false ∧
      (chars "```").isPrefixOf (jsTrim l) = false ∧
      (chars "# ").isPrefixOf (jsTrim l) = false ∧
      (chars "## ").isPrefixOf (jsTrim l) = false := by
    rcases hD with hA | hB
    · have hpre : (chars "- ").isPrefixOf l = true := by
        simp only [Bool.and_eq_true] at hA
        exact hA.1
      obtain ⟨r, hr⟩ := List.isPrefixOf_iff_prefix.mp hpre
      have hdash : jsTrim l = '-' :: rdropWhileP wsChar (' ' :: r) := by
        rw [← hr]
        exact jsTrim_cons_not_ws '-' (' ' :: r) (by decide)
      rw [hdash]
      refine ⟨?_, ?_, ?_, ?_⟩ <;> simp [chars, List.isPrefixOf]
    · obtain ⟨r, hr⟩ := List.isPrefixOf_iff_prefix.mp hB
      rw [← hr]
      refine ⟨?_, ?_, ?_, ?_⟩ <;> simp [chars, List.isPrefixOf]
  have hfin : finalizeState s = s := by
    unfold finalizeState
    rw [htask]
  have hout : outerStep s l (jsTrim l) = some s := by
    simp only [outerStep, hF.1, hF.2.1, hF.2.2.1, hF.2.2.2, hcb, htt, hfin, hcol]
    simp
  simp [processLine, hout]

theorem c10_task_header_before_column_ignored_witness :
    processLine (initState 1) (chars "### foo") = initState 1 :=
  c10_task_header_before_column_ignored (initState 1) (chars "### foo")
    rfl rfl rfl (by decide)

/- ===== Claim C7: archived marker round trip ===== -/

/-- A list without carriage returns is unchanged by newline normalisation. -/
lemma normalizeNewlines_no_cr : ∀ l : List Char, '\r' ∉ l → normalizeNewlines l = l := by
  intro l
  induction l with
  | nil => intro _; rfl
  | cons c rest ih =>
    intro h
    have hc : ¬ c = '\r' := fun e => h (by simp [e])
    have hr : '\r' ∉ rest := fun e => h (List.mem_cons_of_mem _ e)
    cases rest with
    | nil => simp [normalizeNewlines, hc]
    | cons d rest2 => simp [normalizeNewlines, hc, ih hr]

/-- Splitting on a separator that does not occur yields the single line. -/
lemma splitOnChar_no_sep : ∀ (sep : Char) (l : List Char), sep ∉ l → splitOnChar sep l = [l] := by
  intro sep l
  induction l with
  | nil => intro _; rfl
  | cons c rest ih =>
    intro h
    have hc : ¬ c = sep := fun e => h (by simp [e])
    have hr : sep ∉ rest := fun e => h (List.mem_cons_of_mem _ e)
    simp [splitOnChar, hc, ih hr]

/-- Dropping while p never lengthens a list. -/
lemma dropWhileLenLe (p : Char → Bool) : ∀ l : List Char, (List.dropWhile p l).length ≤ l.length := by
  intro l
  induction l with
  | nil => simp
  | cons c r ih =>
    by_cases hc : p c
    · rw [List.dropWhile_cons_of_pos hc]
      simp only [List.length_cons]
      omega
    · rw [List.dropWhile_cons_of_neg hc]

/-- A dropWhile result of full length is the whole list. -/
lemma dropWhileLenEq (p : Char → Bool) : ∀ l : List Char, (List.dropWhile p l).length = l.length → List.dropWhile p l = l := by
  intro l
  cases l with
  | nil => intro _; rfl
  | cons c r =>
    intro h
    by_cases hc : p c
    · rw [List.dropWhile_cons_of_pos hc] at h
      have := dropWhileLenLe p r
      simp only [List.length_cons] at h
      omega
    · rw [List.dropWhile_cons_of_neg hc]

/-- A list fixed by trim is fixed by the leading drop alone. -/
lemma trim_self_dropWhile (l : List Char) (h : jsTrim l = l) :
    List.dropWhile wsChar l = l := by
  have h1 : (rdropWhileP wsChar (l.dropWhile wsChar)).length ≤ (l.dropWhile wsChar).length := by
    have := dropWhileLenLe wsChar (l.dropWhile wsChar).reverse
    simpa [rdropWhileP] using this
  have h2 : (l.dropWhile wsChar).length ≤ l.length := dropWhileLenLe wsChar l
  have h3 : (jsTrim l).length = l.length := by rw [h]
  rw [jsTrim] at h3
  exact dropWhileLenEq wsChar l (by omega)

/-- A list fixed by trim is fixed by the trailing drop alone. -/
lemma trim_self_rdrop (l : List Char) (h : jsTrim l = l) :
    rdropWhileP wsChar l = l := by
  have hd := trim_self_dropWhile l h
  rw [jsTrim, hd] at h
  exact h

/-- rdropWhileP keeps a list ending in a character the predicate rejects. -/
lemma rdropWhileP_append_keep (p : Char → Bool) (l : List Char) (a : Char)
    (ha : p a = false) : rdropWhileP p (l ++ [a]) = l ++ [a] := by
  simp [rdropWhileP, List.dropWhile_cons, ha]

/-- rdropWhileP drops a final character the predicate accepts. -/
lemma rdropWhileP_append_drop (p : Char → Bool) (l : List Char) (a : Char)
    (ha : p a = true) : rdropWhileP p (l ++ [a]) = rdropWhileP p l := by
  simp [rdropWhileP, List.dropWhile_cons, ha]

/-- The parsed column of the C7 scenario. -/
def c7Col (t : String) : KanbanColumn := { id := generatedId 0, title := t, tasks := [], archived := some true }

/-- The parser state after the C7 header line. -/
def c7State (t : String) (nid : Nat) : ParseState :=
  { board := { title := "", columns := [], nextId := nid }, currentColumn := some (c7Col t), currentTask := none, inTaskBody := false, inCodeBlock := false, activeListKey := none, collectingDescription := false, genCounter := 1 }

/-- C7: for any trimmed, nonempty, newline-free title text t, the document
consisting of the single column header line "## t [Archived]" parses to
exactly one column, with title t (the marker stripped) and archived true;
and serializing any column with title t and archived truthy emits the
header line "## t [Archived]" followed by the blank separator, exactly.
Hence the archived marker round-trips. -/
theorem c7_archived_round_trip (t : String)
    (hT : jsTrim t.data = t.data) (hNe : t.data ≠ [])
    (hNl : '\n' ∉ t.data) (hCr : '\r' ∉ t.data) :
    (parseMarkdown (String.mk (chars "## " ++ t.data ++ chars " [Archived]"))).columns
      = [{ id := generatedId 0, title := t, tasks := [], archived := some true }] ∧
    ∀ (cid : String) (fmt : TaskHeaderFormat),
      columnChunk fmt { id := cid, title := t, tasks := [], archived := some true }
        = chars "## " ++ t.data ++ chars " [Archived]" ++ chars "\n\n" := by
  obtain ⟨c, r, ht⟩ : ∃ c r, t.data = c :: r := by
    cases hd : t.data with
    | nil => exact absurd hd hNe
    | cons c r => exact ⟨c, r, rfl⟩
  have hdw : List.dropWhile wsChar t.data = t.data := trim_self_dropWhile t.data hT
  have hhead : ¬ wsChar c = true := by
    rw [ht] at hdw
    rw [List.dropWhile_eq_self_iff] at hdw
    simpa using hdw (by simp)
  have hrdt : rdropWhileP wsChar t.data = t.data := trim_self_rdrop t.data hT
  have hX : jsTrim (t.data ++ chars " [Archived]") = t.data ++ chars " [Archived]" := by
    have h1 : List.dropWhile wsChar (t.data ++ chars " [Archived]")
        = t.data ++ chars " [Archived]" := by
      rw [ht, List.cons_append, List.dropWhile_cons_of_neg hhead]
    have h2 : t.data ++ chars " [Archived]"
        = (t.data ++ chars " [Archived") ++ [']'] := by
      rw [List.append_assoc]
      rfl
    rw [jsTrim, h1, h2, rdropWhileP_append_keep _ _ _ (by decide)]
  have hstrip : stripArchived (t.data ++ chars " [Archived]") = (t.data, true) := by
    have hsfx : archivedMarker.isSuffixOf (t.data ++ chars " [Archived]") = true := by
      have h2 : t.data ++ chars " [Archived]" = (t.data ++ [' ']) ++ archivedMarker := by
        rw [List.append_assoc]
        rfl
      rw [h2, List.isSuffixOf_iff_suffix]
      exact List.suffix_append _ _
    have hlen : (t.data ++ chars " [Archived]").length - 10 = (t.data ++ [' ']).length := by
      simp [chars]
    have htake : (t.data ++ chars " [Archived]").take ((t.data ++ chars " [Archived]").length - 10)
        = t.data ++ [' '] := by
      rw [hlen, show t.data ++ chars " [Archived]" = (t.data ++ [' ']) ++ chars "[Archived]" by
        rw [List.append_assoc]; rfl]
      exact List.take_left _ _
    rw [stripArchived, if_pos hsfx, htake, rdropWhileP_append_drop _ _ _ (by decide), hrdt, hT]
  have hjt : jsTrim (chars "## " ++ t.data ++ chars " [Archived]")
      = chars "## " ++ t.data ++ chars " [Archived]" := by
    have hshape : chars "## " ++ t.data ++ chars " [Archived]"
        = '#' :: ('#' :: ' ' :: (t.data ++ chars " [Archived]")) := by
      simp [chars]
    rw [hshape, jsTrim_cons_not_ws _ _ (by decide)]
    have h2 : '#' :: ' ' :: (t.data ++ chars " [Archived]")
        = (('#' :: ' ' :: t.data) ++ chars " [Archived") ++ [']'] := by
      simp [chars]
    rw [h2, rdropWhileP_append_keep _ _ _ (by decide)]
  have hdrop3 : List.drop 3 (chars "## " ++ t.data ++ chars " [Archived]")
      = t.data ++ chars " [Archived]" := by
    simp [chars]
  have hpf1 : (chars "<!--").isPrefixOf (chars "## " ++ t.data ++ chars " [Archived]") = false := by
    simp [chars, List.isPrefixOf]
  have hpf2 : (chars "```").isPrefixOf (chars "## " ++ t.data ++ chars " [Archived]") = false := by
    simp [chars, List.isPrefixOf]
  have hpf3 : (chars "# ").isPrefixOf (chars "## " ++ t.data ++ chars " [Archived]") = false := by
    simp [chars, List.isPrefixOf]
  have hpf4 : (chars "## ").isPrefixOf (chars "## " ++ t.data ++ chars " [Archived]") = true := by
    simp [chars, List.isPrefixOf]
  have hstep : ∀ nid : Nat,
      processLine (initState nid) (chars "## " ++ t.data ++ chars " [Archived]")
        = c7State t nid := by
    intro nid
    have hout : outerStep (initState nid) (chars "## " ++ t.data ++ chars " [Archived]")
        (chars "## " ++ t.data ++ chars " [Archived]") = some (c7State t nid) := by
      simp only [outerStep, hpf1, hpf2, hpf3, hpf4, hdrop3, hX, hstrip]
      simp [initState, finalizeState, c7State, c7Col, show String.mk t.data = t from rfl]
    simp only [processLine, hjt, hout]
  constructor
  · show (assignIds (rawParse _).board).columns = _
    have hdata : (String.mk (chars "## " ++ t.data ++ chars " [Archived]")).data
        = chars "## " ++ t.data ++ chars " [Archived]" := rfl
    have hmemCr : '\r' ∉ chars "## " ++ t.data ++ chars " [Archived]" := by
      intro hm
      rcases List.mem_append.mp hm with hm | hm
      · rcases List.mem_append.mp hm with hm | hm
        · exact absurd hm (by decide)
        · exact hCr hm
      · exact absurd hm (by decide)
    have hmemNl : '\n' ∉ chars "## " ++ t.data ++ chars " [Archived]" := by
      intro hm
      rcases List.mem_append.mp hm with hm | hm
      · rcases List.mem_append.mp hm with hm | hm
        · exact absurd hm (by decide)
        · exact hNl hm
      · exact absurd hm (by decide)
    have hraw : (rawParse (String.mk (chars "## " ++ t.data ++ chars " [Archived]"))).board
        = { title := "", columns := [c7Col t], nextId := (scanNextId (chars "## " ++ t.data ++ chars " [Archived]")).getD 1 } := by
      rw [rawParse]
      simp only [hdata, normalizeNewlines_no_cr _ hmemCr, splitOnChar_no_sep _ _ hmemNl]
      rw [show ∀ s0, runLines s0 [chars "## " ++ t.data ++ chars " [Archived]"] = processLine s0 (chars "## " ++ t.data ++ chars " [Archived]") from fun s0 => rfl]
      rw [hstep]
      rfl
    show (assignIds (rawParse (String.mk (chars "## " ++ t.data ++ chars " [Archived]"))).board).columns = _
    rw [hraw]
    rfl
  · intro cid fmt
    simp [columnChunk, chars, List.append_assoc]

theorem c7_archived_round_trip_witness :
    (parseMarkdown (String.mk (chars "## " ++ ("Done").data ++ chars " [Archived]"))).columns
      = [{ id := generatedId 0, title := "Done", tasks := [], archived := some true }] ∧
    columnChunk .title { id := "TSK_7", title := "Done", tasks := [], archived := some true }
      = chars "## " ++ ("Done").data ++ chars " [Archived]" ++ chars "\n\n" := by
  have h := c7_archived_round_trip "Done" (by decide) (by decide) (by decide) (by decide)
  exact ⟨h.1, h.2 "TSK_7" .title⟩
